import Mathlib

/-!
Verification of the ResultEase core domain model against its specification.

The TypeScript sources are shallowly embedded: JS numbers are modelled as
exact rationals (`ℚ`), fallible constructors (which `throw` in TS) return
`Except String`, JS `Map`s and plain objects are association lists with
JS insertion-order semantics (`set` on an existing key replaces in place,
otherwise appends), and `undefined` is `Option.none`.  `NaN` is not
representable in `ℚ`; the `typeof`/`isNaN` guards of the sources are kept
as comments where they are vacuous in the model.
-/

namespace ResultEase

/-- JS `String.prototype.trim` over the character list (the built-in
`String.trim` is byte-position based and does not reduce in the kernel). -/
def jsTrim (s : String) : String :=
  String.mk (((s.data.dropWhile Char.isWhitespace).reverse.dropWhile Char.isWhitespace).reverse)

/-- JS `String.prototype.toLowerCase` (ASCII; the inputs of interest are
ASCII). -/
def jsToLower (s : String) : String := String.mk (s.data.map Char.toLower)

/-- JS `String.prototype.toUpperCase` (ASCII). -/
def jsToUpper (s : String) : String := String.mk (s.data.map Char.toUpper)

/-- JS truthiness for an optional string value (`undefined` and `""` are
falsy, every other string truthy). -/
def truthyStr (v : Option String) : Bool :=
  match v with
  | none => false
  | some s => s ≠ ""

/-- A JS number produced by `parseFloat`: either a finite value or a signed
infinity (from the literal `Infinity`). -/
inductive JSNum where
  | fin (q : ℚ)
  | inf (neg : Bool)
deriving DecidableEq

/-- Digits of a decimal literal folded to a natural number. -/
def digitsToNat (cs : List Char) : ℕ :=
  cs.foldl (fun acc c => 10 * acc + (c.toNat - '0'.toNat)) 0

/-- Span of leading decimal digits. -/
def spanDigits (cs : List Char) : List Char × List Char :=
  (cs.takeWhile Char.isDigit, cs.dropWhile Char.isDigit)

/-- Mantissa part of a JS float literal: digits, optionally followed by a
dot and more digits; at least one digit overall.  Returns the value and
the unconsumed rest. -/
def parseMantissa (cs : List Char) : Option (ℚ × List Char) :=
  let (ip, rest) := spanDigits cs
  match rest with
  | '.' :: rest2 =>
      let (fp, rest3) := spanDigits rest2
      if ip.isEmpty ∧ fp.isEmpty then none
      else some ((digitsToNat ip : ℚ) + (digitsToNat fp : ℚ) / ((10 : ℚ) ^ fp.length), rest3)
  | _ =>
      if ip.isEmpty then none
      else some ((digitsToNat ip : ℚ), rest)

/-- Optional exponent part (`e`/`E`, optional sign, digits); if no digits
follow the marker the marker is not consumed (longest valid prefix rule). -/
def parseExponent (cs : List Char) : Int :=
  match cs with
  | 'e' :: rest | 'E' :: rest =>
      let (sgn, rest2) : Int × List Char :=
        match rest with
        | '+' :: r => (1, r)
        | '-' :: r => (-1, r)
        | r => (1, r)
      let (ds, _) := spanDigits rest2
      if ds.isEmpty then 0 else sgn * (digitsToNat ds : Int)
  | _ => 0

/-- Model of JS `parseFloat`: skip leading whitespace, optional sign, then
either the literal `Infinity` (case sensitive) or a decimal mantissa with
optional exponent; `none` models `NaN`.  Values are exact rationals (the
float64 rounding of the host is not modelled). -/
def parseFloat (s : String) : Option JSNum :=
  let cs := s.toList.dropWhile Char.isWhitespace
  let (neg, cs2) : Bool × List Char :=
    match cs with
    | '+' :: r => (false, r)
    | '-' :: r => (true, r)
    | r => (false, r)
  if ("Infinity".toList).isPrefixOf cs2 then
    some (.inf neg)
  else
    match parseMantissa cs2 with
    | none => none
    | some (m, rest) =>
        let e := parseExponent rest
        let v := m * (10 : ℚ) ^ e
        some (.fin (if neg then -v else v))

/-- JS `Map.prototype.set`: replace the value at an existing key in place,
otherwise append the new binding. -/
def mapSet {α : Type} (m : List (String × α)) (k : String) (v : α) : List (String × α) :=
  match m with
  | [] => [(k, v)]
  | (k', v') :: rest =>
      if k' = k then (k, v) :: rest else (k', v') :: mapSet rest k v

/-- JS `Map.prototype.get` / object indexing. -/
def mapGet {α : Type} (m : List (String × α)) (k : String) : Option α :=
  match m with
  | [] => none
  | (k', v') :: rest => if k' = k then some v' else mapGet rest k

/-- JS `Array.prototype.join(", ")`. -/
def joinComma : List String → String
  | [] => ""
  | [s] => s
  | s :: rest => s ++ ", " ++ joinComma rest

/-- Rendering of a JS number in a template string (matches JS for the
integral values that actually occur). -/
def numToStr (q : ℚ) : String :=
  if q.den = 1 then toString q.num else toString q

/-! ## Value objects: `Marks` and `Percentage` -/

/-- `Marks` value object (src/domain/value-objects/Marks.ts). -/
structure Marks where
  val : ℚ
deriving DecidableEq

/-- `Marks.validateMarks`: negative marks are rejected, and above 100 is
rejected unless the value is a total.  (The `typeof`/`NaN` guards cannot
fire over `ℚ`.) -/
def Marks.validateMarks (marks : ℚ) (isTotal : Bool) : Except String Unit :=
  if marks < 0 then .error "Marks cannot be negative"
  else if ¬isTotal ∧ marks > 100 then .error "Marks cannot exceed 100"
  else .ok ()

/-- The `Marks` constructor. -/
def Marks.create (marks : ℚ) (isTotal : Bool := false) : Except String Marks :=
  match Marks.validateMarks marks isTotal with
  | .error e => .error e
  | .ok _ => .ok ⟨marks⟩

/-- `Marks.total`. -/
def Marks.totalOf (marks : ℚ) : Except String Marks :=
  Marks.create marks true

/-- `Marks.fromString` (for Excel parsing). -/
def Marks.fromString (marksString : String) : Except String Marks :=
  let trimmed := jsTrim marksString
  if trimmed = "" ∨ jsToLower trimmed = "absent" ∨ jsToLower trimmed = "ab" then
    Marks.create 0
  else
    match parseFloat trimmed with
    | none => .error ("Invalid marks format: " ++ marksString)
    | some (.fin q) => Marks.create q
    | some (.inf neg) =>
        -- an infinite parse is rejected by validateMarks (±∞ is < 0 or > 100)
        if neg then .error "Marks cannot be negative" else .error "Marks cannot exceed 100"

/-- `Percentage` value object (src/domain/value-objects/Percentage.ts). -/
structure Percentage where
  val : ℚ
deriving DecidableEq

/-- `Percentage.validatePercentage`: rejects values below 0 or above 100. -/
def Percentage.validatePercentage (percentage : ℚ) : Except String Unit :=
  if percentage < 0 then .error "Percentage cannot be negative"
  else if percentage > 100 then .error "Percentage cannot exceed 100"
  else .ok ()

/-- The `Percentage` constructor. -/
def Percentage.create (percentage : ℚ) : Except String Percentage :=
  match Percentage.validatePercentage percentage with
  | .error e => .error e
  | .ok _ => .ok ⟨percentage⟩

/-- `Percentage.fromMarks`. -/
def Percentage.fromMarks (obtained total : ℚ) : Except String Percentage :=
  if total ≤ 0 then .error "Total marks must be greater than zero"
  else Percentage.create (obtained / total * 100)

/-! ## Entities: `Subject`, `Student` -/

/-- `Subject` entity (src/domain/entities/Subject.ts). -/
structure Subject where
  name : String
  maxMarks : ℚ
  isOptional : Bool
deriving DecidableEq

/-- `Subject.validateSubject`. -/
def Subject.validateSubject (name : String) (maxMarks : ℚ) : Except String Unit :=
  if jsTrim name = "" then .error "Subject name must be a non-empty string"
  else if maxMarks ≤ 0 then .error "Maximum marks must be a positive number"
  else if maxMarks > 1000 then .error "Maximum marks cannot exceed 1000"
  else .ok ()

/-- The `Subject` constructor (defaults: `maxMarks = 100`,
`isOptional = false`); stores the trimmed name. -/
def Subject.create (name : String) (maxMarks : ℚ := 100) (isOptional : Bool := false) :
    Except String Subject :=
  match Subject.validateSubject name maxMarks with
  | .error e => .error e
  | .ok _ => .ok ⟨jsTrim name, maxMarks, isOptional⟩

/-- `Student` entity (src/domain/entities/Student.ts). -/
structure Student where
  name : String
  rollNumber : String
  className : Option String
  sectionName : Option String   -- the TS field `section` (a Lean keyword)
deriving DecidableEq

/-- `Student.validateStudent`. -/
def Student.validateStudent (name rollNumber : String) : Except String Unit :=
  if jsTrim name = "" then .error "Student name must be a non-empty string"
  else if (jsTrim name).length < 2 then .error "Student name must be at least 2 characters long"
  else if jsTrim rollNumber = "" then .error "Roll number must be a non-empty string"
  else .ok ()

/-- The `Student` constructor; stores trimmed fields. -/
def Student.create (name rollNumber : String)
    (className : Option String := none) (sectionName : Option String := none) :
    Except String Student :=
  match Student.validateStudent name rollNumber with
  | .error e => .error e
  | .ok _ => .ok ⟨jsTrim name, jsTrim rollNumber, className.map jsTrim, sectionName.map jsTrim⟩

/-- `Student.fromRawData`: requires truthy `name` and `rollNumber`. -/
def Student.fromRawData (name rollNumber className sectionName : Option String) :
    Except String Student :=
  if ¬ truthyStr name then .error "Student name is required"
  else if ¬ truthyStr rollNumber then .error "Student roll number is required"
  else Student.create (name.getD "") (rollNumber.getD "") className sectionName

/-! ## The `Result` aggregate (src/domain/entities/Result.ts) -/

/-- `StudentResult`: one student's performance across all subjects. -/
structure StudentResult where
  student : Student
  marks : List (String × Marks)   -- subject name -> marks (JS Map)
  totalMarks : Marks
  percentage : Percentage
  rank : Option ℕ
deriving DecidableEq

/-- `Result` aggregate root.  (`createdAt` is a wall-clock timestamp with
no relevance to any claim and is omitted.) -/
structure Result where
  id : String
  title : String
  subjects : List Subject
  studentResults : List (String × StudentResult)  -- roll number -> result (JS Map)
  maxTotalMarks : ℚ
deriving DecidableEq

/-- `Result.validateResult`. -/
def Result.validateResult (id title : String) (subjects : List Subject) :
    Except String Unit :=
  if jsTrim id = "" then .error "Result ID must be a non-empty string"
  else if jsTrim title = "" then .error "Result title must be a non-empty string"
  else if subjects = [] then .error "Result must have at least one subject"
  else .ok ()

/-- `Result.validateStudentResult`: every subject of the result set must
have a marks entry in the student result. -/
def Result.validateStudentResult (r : Result) (sr : StudentResult) :
    Except String Unit :=
  match (r.subjects.map Subject.name).find? (fun n => !((sr.marks.map Prod.fst).contains n)) with
  | some missing => .error ("Missing marks for subject: " ++ missing)
  | none => .ok ()

/-- `Result.addStudentResult`: validate, then `Map.set` keyed by the
student's roll number. -/
def Result.addStudentResult (r : Result) (sr : StudentResult) : Except String Result :=
  match Result.validateStudentResult r sr with
  | .error e => .error e
  | .ok _ => .ok { r with studentResults := mapSet r.studentResults sr.student.rollNumber sr }

/-- The `Result` constructor: validates, computes the max total marks and
adds the given student results one by one. -/
def Result.create (id title : String) (subjects : List Subject)
    (studentResults : List StudentResult := []) : Except String Result :=
  match Result.validateResult id title subjects with
  | .error e => .error e
  | .ok _ =>
      let base : Result :=
        { id := id, title := jsTrim title, subjects := subjects, studentResults := [],
          maxTotalMarks := (subjects.map Subject.maxMarks).sum }
      studentResults.foldlM Result.addStudentResult base

/-- `Result.getStudentResults` (the map's values in insertion order). -/
def Result.getStudentResults (r : Result) : List StudentResult :=
  r.studentResults.map Prod.snd

/-- `Result.getStudentCount`. -/
def Result.getStudentCount (r : Result) : ℕ :=
  r.studentResults.length

/-! ## Ranking (`Result.calculateRanks`) -/

/-- The sort order of `calculateRanks`' comparator
`(a, b) ↦ b.percentage - a.percentage, ties b.totalMarks - a.totalMarks`:
`rankLE a b` holds when the comparator returns a non-positive value, i.e.
`a` sorts no later than `b` (percentage descending, ties broken by total
marks descending). -/
def rankLE (a b : StudentResult) : Prop :=
  b.percentage.val < a.percentage.val ∨
    (b.percentage.val = a.percentage.val ∧ b.totalMarks.val ≤ a.totalMarks.val)

instance : DecidableRel rankLE := fun a b => by
  unfold rankLE; infer_instance

instance : IsTotal StudentResult rankLE where
  total a b := by
    unfold rankLE
    rcases lt_trichotomy a.percentage.val b.percentage.val with h | h | h
    · exact Or.inr (Or.inl h)
    · rcases le_total a.totalMarks.val b.totalMarks.val with h2 | h2
      · exact Or.inr (Or.inr ⟨h, h2⟩)
      · exact Or.inl (Or.inr ⟨h.symm, h2⟩)
    · exact Or.inl (Or.inl h)

instance : IsTrans StudentResult rankLE where
  trans a b c hab hbc := by
    unfold rankLE at *
    rcases hab with h1 | ⟨e1, t1⟩ <;> rcases hbc with h2 | ⟨e2, t2⟩
    · exact Or.inl (h2.trans h1)
    · exact Or.inl (e2 ▸ h1)
    · exact Or.inl (e1 ▸ h2)
    · exact Or.inr ⟨e2.trans e1, t2.trans t1⟩

/-- The rank-assignment loop of `calculateRanks`: `i` is the current index,
`cur` the rank most recently assigned, `prev` the previous record's
percentage.  A record keeps `cur` unless `i > 0` and its percentage
differs from the previous one, in which case the rank becomes `i + 1`. -/
def rankGo (i : ℕ) (cur : ℕ) (prev : Option ℚ) : List StudentResult → List StudentResult
  | [] => []
  | x :: xs =>
      let newRank := if i > 0 ∧ prev ≠ some x.percentage.val then i + 1 else cur
      { x with rank := some newRank } :: rankGo (i + 1) newRank (some x.percentage.val) xs

/-- Rank assignment over a (sorted) sequence, starting at rank 1. -/
def assignRanks (l : List StudentResult) : List StudentResult :=
  rankGo 0 1 none l

/-- The sorted, ranked sequence produced inside `calculateRanks` (the JS
`Array.sort` is stable; `List.insertionSort` is the stable sort realizing
the comparator's order). -/
def Result.rankedSequence (r : Result) : List StudentResult :=
  assignRanks (r.getStudentResults.insertionSort rankLE)

/-- `Result.calculateRanks`: the JS code mutates each `StudentResult`'s
`rank` in place; the map entries are the same objects, so each entry's rank
becomes the rank its record received in the sorted sequence (records are
identified by their roll number, the map key). -/
def Result.calculateRanks (r : Result) : Result :=
  let ranked := r.rankedSequence
  { r with
    studentResults := r.studentResults.map fun kv =>
      (kv.1, { kv.2 with
        rank := match ranked.find? (fun sr => sr.student.rollNumber = kv.1) with
                | some sr => sr.rank
                | none => kv.2.rank }) }

/-! ## `Result.fromRawData` -/

/-- A raw marks cell of `Result.fromRawData`'s input
(`Record<string, number | string>`). -/
inductive RawMark where
  | num (q : ℚ)
  | str (s : String)
deriving DecidableEq

/-- One raw student record of `Result.fromRawData`'s input. -/
structure RawStudent where
  name : Option String
  rollNumber : Option String
  className : Option String
  sectionName : Option String
  marks : List (String × RawMark)
deriving DecidableEq

/-- The input of `Result.fromRawData`. -/
structure RawResultData where
  id : String
  title : String
  subjects : List String
  studentData : List RawStudent
deriving DecidableEq

/-- The per-subject marks loop of `fromRawData`: builds the marks map in
subject order and accumulates the running total.  A string cell goes
through `Marks.fromString`; a numeric cell through `new Marks(value || 0)`
(a number is unchanged, `0` stays `0`); a missing cell (`undefined || 0`)
becomes `Marks 0`. -/
def buildStudentMarks (subjects : List Subject) (cells : List (String × RawMark)) :
    Except String (List (String × Marks) × ℚ) :=
  subjects.foldlM
    (fun acc subj => do
      let mark ← match mapGet cells subj.name with
        | some (.str s) => Marks.fromString s
        | some (.num q) => Marks.create q
        | none => Marks.create 0
      .ok (mapSet acc.1 subj.name mark, acc.2 + mark.val))
    ([], 0)

/-- `Result.fromRawData`: create subjects (default max marks 100), build
each student's result (total = sum of marks, percentage = total over the
summed subject maxima), construct the `Result` and compute ranks. -/
def Result.fromRawData (data : RawResultData) : Except String Result := do
  let subjects ← data.subjects.mapM (fun n => Subject.create n)
  let studentResults ← data.studentData.mapM (fun sd => do
    let student ← Student.fromRawData sd.name sd.rollNumber sd.className sd.sectionName
    let (marks, totalMarksValue) ← buildStudentMarks subjects sd.marks
    let totalMarks ← Marks.totalOf totalMarksValue
    let percentage ← Percentage.fromMarks totalMarksValue ((subjects.map Subject.maxMarks).sum)
    .ok (⟨student, marks, totalMarks, percentage, none⟩ : StudentResult))
  let result ← Result.create data.id data.title subjects studentResults
  .ok result.calculateRanks

/-! ## `ColumnMapper.getMarksTransformer` (src/features/excel/ColumnMapper.ts) -/

/-- A raw spreadsheet cell value as seen by a column transformer. -/
inductive CellValue where
  | null
  | undef
  | str (s : String)
  | num (q : ℚ)
deriving DecidableEq

/-- `Math.max(0, Math.min(100, q))`. -/
def clamp100 (q : ℚ) : ℚ := max 0 (min 100 q)

/-- The marks transformer returned by `ColumnMapper.getMarksTransformer`.
For a numeric cell, `String(value)` round-trips through `parseFloat` to
the same (finite) number and never equals one of the special strings, so
the numeric case is clamped directly. -/
def marksTransformer (value : CellValue) : ℚ :=
  match value with
  | .null => 0
  | .undef => 0
  | .num q => clamp100 q
  | .str s0 =>
      if s0 = "" then 0
      else
        let s := jsTrim (jsToLower s0)
        if s = "absent" ∨ s = "ab" ∨ s = "a" then 0
        else if s = "pass" ∨ s = "p" then 40
        else if s = "fail" ∨ s = "f" then 0
        else
          match parseFloat s with
          | none => 0
          | some (.fin q) => clamp100 q
          | some (.inf neg) => if neg then 0 else 100

/-! ## `ResultCalculator.calculateMarksDistribution` -/

/-- The JS template key `` `${a}-${b}%` ``. -/
def rangeKey (a b : ℚ) : String := numToStr a ++ "-" ++ numToStr b ++ "%"

/-- Consecutive range pairs `(ranges[i], ranges[i+1])`. -/
def rangePairs (ranges : List ℚ) : List (ℚ × ℚ) := ranges.zip ranges.tail

/-- The initialized distribution object: one zero entry per range pair, in
range order. -/
def initDist (ranges : List ℚ) : List (String × ℕ) :=
  (rangePairs ranges).map (fun p => (rangeKey p.1 p.2, 0))

/-- `distribution[key]++` (the key always exists: it was initialized). -/
def incKey (d : List (String × ℕ)) (k : String) : List (String × ℕ) :=
  d.map (fun kv => if kv.1 = k then (kv.1, kv.2 + 1) else kv)

/-- The inner `for` loop with `break`: the first range pair containing the
percentage (inclusive low, exclusive high). -/
def bucketKey (ranges : List ℚ) (p : ℚ) : Option String :=
  ((rangePairs ranges).find? (fun pr => decide (pr.1 ≤ p ∧ p < pr.2))).map
    (fun pr => rangeKey pr.1 pr.2)

/-- Processing of one student: increment the containing bucket (if any),
then additionally handle the exact-100% special case into the top bucket. -/
def distStep (ranges : List ℚ) (d : List (String × ℕ)) (p : ℚ) : List (String × ℕ) :=
  let d1 := match bucketKey ranges p with
    | some k => incKey d k
    | none => d
  if p = 100 then
    match (rangePairs ranges).getLast? with
    | some pr => incKey d1 (rangeKey pr.1 pr.2)
    | none => d1
  else d1

/-- `ResultCalculator.calculateMarksDistribution` (default ranges
`[0, 40, 60, 75, 90, 100]`). -/
def calculateMarksDistribution (r : Result) (ranges : List ℚ := [0, 40, 60, 75, 90, 100]) :
    List (String × ℕ) :=
  r.getStudentResults.foldl (fun d sr => distStep ranges d sr.percentage.val) (initDist ranges)

/-! ## `ValidationService` (src/features/excel, unnamed part)

`validateData` first routes each raw row's cells through the accepted
column mappings (`transformRowsForValidation`), producing candidate
records with a `studentName`, a `rollNumber` and a per-subject `marks`
object.  The service is modelled on those transformed records; marks
cells are modelled as numbers (`Number(m)` is the identity there and the
`isNaN` guards cannot fire). -/

/-- A transformed candidate record. -/
structure TRow where
  studentName : Option String
  rollNumber : Option String
  marks : List (String × ℚ)
deriving DecidableEq

/-- A validator's verdict (`ValidationResult`). -/
structure VResult where
  isValid : Bool
  message : Option String
deriving DecidableEq

inductive Severity where
  | error
  | warning
deriving DecidableEq

/-- A validation rule of the default rule table (`ValidationRule`). -/
structure VRule where
  name : String
  field : String
  validator : TRow → VResult
  severity : Severity

/-- The character class of the name-format regex `[a-zA-Z\s\.''-]`. -/
def allowedNameChar (c : Char) : Bool :=
  c.isAlpha ∨ c.isWhitespace ∨ c = '.' ∨ c = Char.ofNat 39 ∨ c = '-'

/-- `required_student_name` (error). -/
def ruleRequiredStudentName : VRule :=
  { name := "required_student_name", field := "studentName", severity := .error,
    validator := fun row =>
      { isValid := truthyStr row.studentName, message := some "Student name is required" } }

/-- `required_roll_number` (error). -/
def ruleRequiredRollNumber : VRule :=
  { name := "required_roll_number", field := "rollNumber", severity := .error,
    validator := fun row =>
      { isValid := truthyStr row.rollNumber, message := some "Roll number is required" } }

/-- `name_format` (error): letters, whitespace, dots, apostrophes and
hyphens only, length 2–100 after trimming. -/
def ruleNameFormat : VRule :=
  { name := "name_format", field := "studentName", severity := .error,
    validator := fun row =>
      if ¬ truthyStr row.studentName then { isValid := true, message := none }
      else
        let name := jsTrim (row.studentName.getD "")
        let hasValidChars := name.length > 0 ∧ name.toList.all allowedNameChar
        let hasMinLength := name.length ≥ 2
        let hasMaxLength := name.length ≤ 100
        if ¬ hasValidChars then
          { isValid := false, message := some "Name contains invalid characters" }
        else if ¬ hasMinLength then
          { isValid := false, message := some "Name must be at least 2 characters long" }
        else if ¬ hasMaxLength then
          { isValid := false, message := some "Name cannot exceed 100 characters" }
        else { isValid := true, message := none } }

/-- `roll_number_format` (error): 1–20 characters after trimming. -/
def ruleRollNumberFormat : VRule :=
  { name := "roll_number_format", field := "rollNumber", severity := .error,
    validator := fun row =>
      if ¬ truthyStr row.rollNumber then { isValid := true, message := none }
      else
        let rollNo := jsTrim (row.rollNumber.getD "")
        if ¬ (rollNo.length ≥ 1 ∧ rollNo.length ≤ 20) then
          { isValid := false, message := some "Roll number must be between 1-20 characters" }
        else { isValid := true, message := none } }

/-- `marks_range` (error): every subject mark must lie in `[0, 100]`.
(The `!row.marks` guard of the source cannot fire on a transformed record,
whose `marks` is always an object.) -/
def ruleMarksRange : VRule :=
  { name := "marks_range", field := "marks", severity := .error,
    validator := fun row =>
      let invalidMarks := (row.marks.filter (fun kv => kv.2 < 0 ∨ kv.2 > 100)).map
        (fun kv => kv.1 ++ ": " ++ numToStr kv.2)
      if invalidMarks ≠ [] then
        { isValid := false,
          message := some ("Invalid marks (must be 0-100): " ++ joinComma invalidMarks) }
      else { isValid := true, message := none } }

/-- `marks_consistency` (warning): no strictly positive mark at all is
invalid; an average of the positive marks below 10 or above 95 yields a
"please verify" message on a *valid* verdict. -/
def ruleMarksConsistency : VRule :=
  { name := "marks_consistency", field := "marks", severity := .warning,
    validator := fun row =>
      let validMarks := (row.marks.map Prod.snd).filter (fun q => q > 0)
      if validMarks = [] then
        { isValid := false, message := some "Student has no valid marks in any subject" }
      else
        let average := validMarks.sum / (validMarks.length : ℚ)
        if average < 10 then
          { isValid := true, message := some "Very low average marks - please verify data" }
        else if average > 95 then
          { isValid := true, message := some "Very high average marks - please verify data" }
        else { isValid := true, message := none } }

/-- The word split `name.split(/\s+/)` on an already trimmed string. -/
def wordsAux : List Char → List Char → List String
  | [], cur => if cur = [] then [] else [String.mk cur.reverse]
  | c :: rest, cur =>
      if c.isWhitespace then
        if cur = [] then wordsAux rest [] else String.mk cur.reverse :: wordsAux rest []
      else wordsAux rest (c :: cur)

/-- The word split of `name_consistency`. -/
def splitWords (s : String) : List String := wordsAux s.data []

/-- `name_consistency` (warning): heuristics, all on a *valid* verdict. -/
def ruleNameConsistency : VRule :=
  { name := "name_consistency", field := "studentName", severity := .warning,
    validator := fun row =>
      if ¬ truthyStr row.studentName then { isValid := true, message := none }
      else
        let name := jsTrim (row.studentName.getD "")
        let words := splitWords name
        if words.length = 1 ∧ (words.headD "").length < 3 then
          { isValid := true, message := some "Very short name - please verify" }
        else if name.toList.any Char.isDigit then
          { isValid := true, message := some "Name contains numbers - please verify" }
        else if name = jsToUpper name ∧ name.length > 10 then
          { isValid := true, message := some "Name is in all caps - consider proper case" }
        else if name = jsToLower name then
          { isValid := true, message := some "Name is in all lowercase - consider proper case" }
        else { isValid := true, message := none } }

/-- `ValidationService.DEFAULT_RULES`, in table order. -/
def DEFAULT_RULES : List VRule :=
  [ruleRequiredStudentName, ruleRequiredRollNumber, ruleNameFormat,
   ruleRollNumberFormat, ruleMarksRange, ruleMarksConsistency, ruleNameConsistency]

/-- One recorded error or warning of a row validation. -/
structure RowIssue where
  field : String
  rule : String
  message : String
deriving DecidableEq

/-- `RowValidationResult`. -/
structure RowValidationResult where
  rowIndex : ℕ
  isValid : Bool
  errors : List RowIssue
  warnings : List RowIssue
deriving DecidableEq

/-- `ValidationService.validateRow`: run every rule; a failing verdict
with a message is recorded under the rule's severity; the row is valid
iff no error was recorded.  (The validators of the model cannot throw, so
the `catch` branch is dead.) -/
def validateRow (row : TRow) (rowIndex : ℕ) (rules : List VRule) : RowValidationResult :=
  let (errors, warnings) := rules.foldl
    (fun (acc : List RowIssue × List RowIssue) rule =>
      let result := rule.validator row
      if ¬ result.isValid ∧ result.message.isSome then
        let issue : RowIssue :=
          { field := rule.field, rule := rule.name, message := result.message.getD "" }
        match rule.severity with
        | .error => (acc.1 ++ [issue], acc.2)
        | .warning => (acc.1, acc.2 ++ [issue])
      else acc)
    ([], [])
  { rowIndex := rowIndex, isValid := errors = [], errors := errors, warnings := warnings }

/-- Append an index under a key, JS-object style (an existing key keeps
its position, a new key goes to the end). -/
def appendIdx (m : List (String × List ℕ)) (k : String) (i : ℕ) : List (String × List ℕ) :=
  match m with
  | [] => [(k, [i])]
  | (k', l) :: rest =>
      if k' = k then (k', l ++ [i]) :: rest else (k', l) :: appendIdx rest k i

/-- Build the key → row-indexes map of `analyzeDuplicates`. -/
def buildIdxMap (pairs : List (ℕ × String)) : List (String × List ℕ) :=
  pairs.foldl (fun m p => appendIdx m p.2 p.1) []

/-- Normalization applied to roll numbers and names before duplicate
detection: trim then lowercase. -/
def normOf (v : Option String) : String := jsToLower (jsTrim (v.getD ""))

/-- The truthy, normalized keys of a field, with their row indexes
(the `forEach` of `analyzeDuplicates` tracking one of the two fields). -/
def idxKeys (g : TRow → Option String) (i : ℕ) : List TRow → List (ℕ × String)
  | [] => []
  | row :: rest =>
      (if truthyStr (g row) then [(i, normOf (g row))] else []) ++ idxKeys g (i + 1) rest

/-- The truthy, normalized roll-number keys with their row indexes. -/
def rollKeys (rows : List TRow) : List (ℕ × String) :=
  idxKeys TRow.rollNumber 0 rows

/-- The truthy, normalized student-name keys with their row indexes. -/
def nameKeys (rows : List TRow) : List (ℕ × String) :=
  idxKeys TRow.studentName 0 rows

/-- `analyzeDuplicates`' output. -/
structure DuplicateAnalysis where
  duplicateRollNumbers : List (String × List ℕ)
  duplicateNames : List (String × List ℕ)
deriving DecidableEq

/-- `ValidationService.analyzeDuplicates`. -/
def analyzeDuplicates (rows : List TRow) : DuplicateAnalysis :=
  { duplicateRollNumbers := (buildIdxMap (rollKeys rows)).filter (fun kv => kv.2.length > 1),
    duplicateNames := (buildIdxMap (nameKeys rows)).filter (fun kv => kv.2.length > 1) }

/-- The summary block of `DataValidationResult`. -/
structure VSummary where
  totalRows : ℕ
  validRows : ℕ
  invalidRows : ℕ
  warningRows : ℕ
deriving DecidableEq

/-- `DataValidationResult` (the data-quality scores are not referenced by
any claim and are omitted). -/
structure DataValidationResult where
  isValid : Bool
  summary : VSummary
  rowResults : List RowValidationResult
  globalErrors : List String
  globalWarnings : List String
  duplicateAnalysis : DuplicateAnalysis
deriving DecidableEq

/-- `ValidationService.validateData` over the transformed candidate
records: per-row validation, duplicate analysis (one pushed global error
listing all duplicated roll numbers; one pushed global warning listing
all duplicated names), summary, and the overall verdict. -/
def validateData (rows : List TRow) (customRules : List VRule := []) : DataValidationResult :=
  let allRules := DEFAULT_RULES ++ customRules
  let rowResults := rows.enum.map (fun p => validateRow p.2 p.1 allRules)
  let dup := analyzeDuplicates rows
  let globalErrors :=
    if dup.duplicateRollNumbers ≠ [] then
      ["Found duplicate roll numbers: " ++ joinComma (dup.duplicateRollNumbers.map Prod.fst)]
    else []
  let globalWarnings :=
    if dup.duplicateNames ≠ [] then
      ["Found duplicate names: " ++ joinComma (dup.duplicateNames.map Prod.fst)]
    else []
  let validRows := (rowResults.filter (fun r => r.isValid)).length
  let invalidRows := (rowResults.filter (fun r => r.isValid = false)).length
  let warningRows := (rowResults.filter (fun r => !r.warnings.isEmpty)).length
  { isValid := globalErrors = [] ∧ invalidRows = 0,
    summary := ⟨rows.length, validRows, invalidRows, warningRows⟩,
    rowResults := rowResults,
    globalErrors := globalErrors,
    globalWarnings := globalWarnings,
    duplicateAnalysis := dup }

/-! ## Helpers and concrete data used by the verification -/

/-- Whether a fallible operation succeeded (did not throw). -/
def isOk {α : Type} : Except String α → Bool
  | .ok _ => true
  | .error _ => false

/-- The rank stored for a roll number in a successfully built result. -/
def rankOfRoll (e : Except String Result) (roll : String) : Option ℕ :=
  match e with
  | .ok r =>
      match mapGet r.studentResults roll with
      | some sr => sr.rank
      | none => none
  | .error _ => none

/-- Raw data for a single-subject class, one student per triple
(roll number, name, marks in the one subject). -/
def oneSubjectRaw (title : String) (rows : List (String × String × ℚ)) : RawResultData :=
  { id := "raw-1", title := title, subjects := ["Math"],
    studentData := rows.map (fun t =>
      { name := some t.2.1, rollNumber := some t.1, className := none, sectionName := none,
        marks := [("Math", .num t.2.2)] }) }

/-! ## C6: `Percentage` bounds and `fromMarks` failure modes -/

theorem percentage_create_ok_bounds {q : ℚ} {p : Percentage}
    (h : Percentage.create q = .ok p) : 0 ≤ p.val ∧ p.val ≤ 100 := by
  unfold Percentage.create Percentage.validatePercentage at h
  by_cases h1 : q < 0
  · simp [h1] at h
  · by_cases h2 : q > 100
    · simp [h1, h2] at h
    · simp [h1, h2] at h
      subst h
      exact ⟨le_of_not_lt h1, le_of_not_lt h2⟩

/-- Decidable equality of results of fallible operations (both payload
types here carry decidable equality). -/
instance {α : Type} [DecidableEq α] : DecidableEq (Except String α) := fun a b =>
  match a, b with
  | .ok x, .ok y =>
      if h : x = y then .isTrue (by rw [h]) else .isFalse (by simp [h])
  | .error e, .error f =>
      if h : e = f then .isTrue (by rw [h]) else .isFalse (by simp [h])
  | .ok _, .error _ => .isFalse (by simp)
  | .error _, .ok _ => .isFalse (by simp)

/-- C6: every successfully constructed `Percentage` has value in
`[0, 100]`; `Percentage.fromMarks` fails for every `total ≤ 0`, and fails
whenever the computed ratio `(obtained / total) * 100` exceeds 100. -/
theorem C6_percentage_invariant :
    (∀ (q : ℚ) (p : Percentage), Percentage.create q = .ok p → 0 ≤ p.val ∧ p.val ≤ 100) ∧
    (∀ obtained total : ℚ, total ≤ 0 → isOk (Percentage.fromMarks obtained total) = false) ∧
    (∀ obtained total : ℚ, obtained / total * 100 > 100 →
      isOk (Percentage.fromMarks obtained total) = false) := by
  refine ⟨fun q p h => percentage_create_ok_bounds h, ?_, ?_⟩
  · intro o t ht
    simp [Percentage.fromMarks, ht, isOk]
  · intro o t hratio
    unfold Percentage.fromMarks
    by_cases ht : t ≤ 0
    · simp [ht, isOk]
    · have h1 : ¬ (o / t * 100 < 0) := not_lt.mpr (le_of_lt (lt_trans (by norm_num) hratio))
      simp [ht, Percentage.create, Percentage.validatePercentage, h1, hratio, isOk]

/-- Witness for C6 at concrete inputs. -/
theorem C6_percentage_invariant_witness :
    (0 ≤ (Percentage.mk 50).val ∧ (Percentage.mk 50).val ≤ 100) ∧
    isOk (Percentage.fromMarks 50 0) = false ∧
    isOk (Percentage.fromMarks 200 100) = false :=
  ⟨C6_percentage_invariant.1 50 (Percentage.mk 50) (by decide),
   C6_percentage_invariant.2.1 50 0 (by norm_num),
   C6_percentage_invariant.2.2 200 100 (by norm_num)⟩

/-! ## C7: the subject-column marks transformer -/

theorem clamp100_bounds (q : ℚ) : 0 ≤ clamp100 q ∧ clamp100 q ≤ 100 :=
  ⟨le_max_left 0 _, max_le (by norm_num) (min_le_left 100 q)⟩

set_option maxHeartbeats 1600000 in
/-- C7 counterexample: the input `"p"` is neither empty nor numeric nor
one of the special words named by the claim (`absent`, `ab`, `pass`,
`fail`), so the claim maps it to 0 — but the transformer returns 40
(the code also accepts the single letters `a`, `p`, `f`). -/
theorem C7_counterexample :
    parseFloat "p" = none ∧
    ("p" : String) ∉ (["absent", "ab", "pass", "fail"] : List String) ∧
    marksTransformer (.str "p") = 40 ∧ marksTransformer (.str "p") ≠ 0 := by
  decide

set_option maxHeartbeats 1600000 in
/-- C7 amended: every output of the transformer lies in `[0, 100]`;
trimmed case-insensitive `absent`/`ab`/`a` map to 0, `pass`/`p` map to
40, `fail`/`f` map to 0; `null`, `undefined` and the empty input map to
0; any other numeric input is clamped into `[0, 100]` and any other
non-numeric input maps to 0. -/
theorem C7_transformer_amended :
    (∀ v : CellValue, 0 ≤ marksTransformer v ∧ marksTransformer v ≤ 100) ∧
    (marksTransformer (.str " Absent ") = 0 ∧ marksTransformer (.str "AB") = 0 ∧
     marksTransformer (.str "a") = 0 ∧ marksTransformer (.str "pass") = 40 ∧
     marksTransformer (.str "P") = 40 ∧ marksTransformer (.str "fail") = 0 ∧
     marksTransformer (.str "F") = 0 ∧ marksTransformer (.str "") = 0 ∧
     marksTransformer .null = 0 ∧ marksTransformer .undef = 0) ∧
    (∀ (s : String) (q : ℚ), s ≠ "" →
      jsTrim (jsToLower s) ∉ (["absent", "ab", "a", "pass", "p", "fail", "f"] : List String) →
      parseFloat (jsTrim (jsToLower s)) = some (.fin q) →
      marksTransformer (.str s) = clamp100 q) ∧
    (∀ s : String, s ≠ "" →
      jsTrim (jsToLower s) ∉ (["absent", "ab", "a", "pass", "p", "fail", "f"] : List String) →
      parseFloat (jsTrim (jsToLower s)) = none →
      marksTransformer (.str s) = 0) := by
  refine ⟨?_, by decide, ?_, ?_⟩
  · intro v
    cases v with
    | null => norm_num [marksTransformer]
    | undef => norm_num [marksTransformer]
    | num q => simpa [marksTransformer] using clamp100_bounds q
    | str s =>
        refine ⟨?_, ?_⟩ <;> simp only [marksTransformer] <;> repeat' split
        all_goals first
          | exact (clamp100_bounds _).1
          | exact (clamp100_bounds _).2
          | norm_num
  · intro s q hne hmem hparse
    simp only [List.mem_cons, List.mem_singleton] at hmem
    push_neg at hmem
    obtain ⟨h1, h2, h3, h4, h5, h6, h7⟩ := hmem
    simp [marksTransformer, hne, h1, h2, h3, h4, h5, h6, h7, hparse]
  · intro s hne hmem hparse
    simp only [List.mem_cons, List.mem_singleton] at hmem
    push_neg at hmem
    obtain ⟨h1, h2, h3, h4, h5, h6, h7⟩ := hmem
    simp [marksTransformer, hne, h1, h2, h3, h4, h5, h6, h7, hparse]

set_option maxHeartbeats 1600000 in
/-- Witness for C7 amended at concrete inputs: `"47.5"` is numeric and
clamped (to itself), `"n/a"` is non-numeric and maps to 0. -/
theorem C7_transformer_amended_witness :
    marksTransformer (.str "47.5") = clamp100 (95 / 2) ∧
    marksTransformer (.str "n/a") = 0 :=
  ⟨C7_transformer_amended.2.2.1 "47.5" (95 / 2) (by decide) (by decide)
      (by with_unfolding_all decide),
   C7_transformer_amended.2.2.2 "n/a" (by decide) (by decide) (by decide)⟩

/-! ## C2: ranking of tied percentages [85, 85, 75] -/

/-- Three students of one 100-mark subject with marks (hence percentages)
85, 85 and 75. -/
def tied858575 : RawResultData :=
  oneSubjectRaw "Tied Test"
    [("001", "Student A", 85), ("002", "Student B", 85), ("003", "Student C", 75)]

set_option maxHeartbeats 1600000 in
/-- C2 counterexample: for tied percentages [85, 85, 75] the code assigns
ranks (1, 1, 3) — the tied pair at the top both get rank 1 and the lowest
student gets rank 3 — not the claimed (2, 2, 1). -/
theorem C2_counterexample :
    rankOfRoll (Result.fromRawData tied858575) "001" = some 1 ∧
    rankOfRoll (Result.fromRawData tied858575) "002" = some 1 ∧
    rankOfRoll (Result.fromRawData tied858575) "003" = some 3 ∧
    ¬ (rankOfRoll (Result.fromRawData tied858575) "001" = some 2 ∧
       rankOfRoll (Result.fromRawData tied858575) "002" = some 2 ∧
       rankOfRoll (Result.fromRawData tied858575) "003" = some 1) := by
  with_unfolding_all decide

/-- Three students with marks 80, 80, 85 (the repository's own ranking
test data), listed in input order. -/
def tied808085 : RawResultData :=
  oneSubjectRaw "Tied Test"
    [("001", "Student A", 80), ("002", "Student B", 80), ("003", "Student C", 85)]

set_option maxHeartbeats 1600000 in
/-- C2 amended: for tied percentages [85, 85, 75], `calculateRanks`
assigns ranks (1, 1, 3): the tied top pair both get rank 1 and the third
student gets rank 3 (competition ranking with a gap after the tie).  The
"highest gets 1, tied pair both get 2" pattern — ranks (2, 2, 1) in input
order — arises for input percentages [80, 80, 85]. -/
theorem C2_rank_ties_amended :
    (rankOfRoll (Result.fromRawData tied858575) "001" = some 1 ∧
     rankOfRoll (Result.fromRawData tied858575) "002" = some 1 ∧
     rankOfRoll (Result.fromRawData tied858575) "003" = some 3) ∧
    (rankOfRoll (Result.fromRawData tied808085) "001" = some 2 ∧
     rankOfRoll (Result.fromRawData tied808085) "002" = some 2 ∧
     rankOfRoll (Result.fromRawData tied808085) "003" = some 1) := by
  with_unfolding_all decide

/-! ## C1: missing marks entries and the `Result` coverage invariant -/

/-- A raw student whose marks record lacks an entry for subject `Sci`. -/
def c1student : RawStudent :=
  { name := some "Alice", rollNumber := some "R1", className := none, sectionName := none,
    marks := [("Math", .num 50)] }

/-- A raw result set declaring subjects `Math` and `Sci`, whose one
student has no marks entry for `Sci`. -/
def c1data : RawResultData :=
  { id := "r1", title := "T", subjects := ["Math", "Sci"], studentData := [c1student] }

set_option maxHeartbeats 1600000 in
/-- C1 counterexample: `fromRawData` does *not* fail although subject
`Sci` has no marks entry for student `R1` — it substitutes 0 and succeeds
(the stored entry maps `Sci` to marks 0). -/
theorem C1_counterexample :
    ("Sci" ∈ c1data.subjects) ∧
    mapGet c1student.marks "Sci" = none ∧
    isOk (Result.fromRawData c1data) = true ∧
    (match Result.fromRawData c1data with
     | .ok r => (mapGet r.studentResults "R1").map (fun sr => mapGet sr.marks "Sci")
     | .error _ => none) = some (some (Marks.mk 0)) := by
  with_unfolding_all decide

/-- Every student result held by the result set carries a marks entry for
every declared subject. -/
def Result.subjectsCovered (r : Result) : Prop :=
  ∀ kv ∈ r.studentResults, ∀ subj ∈ r.subjects,
    (kv.2.marks.map Prod.fst).contains subj.name = true

theorem validateStudentResult_ok {r : Result} {sr : StudentResult} {u : Unit}
    (h : Result.validateStudentResult r sr = .ok u) :
    ∀ subj ∈ r.subjects, (sr.marks.map Prod.fst).contains subj.name = true := by
  intro subj hsubj
  unfold Result.validateStudentResult at h
  rcases hf : (r.subjects.map Subject.name).find?
      (fun n => !((sr.marks.map Prod.fst).contains n)) with _ | missing
  · have := List.find?_eq_none.mp hf subj.name (List.mem_map_of_mem Subject.name hsubj)
    simpa using this
  · rw [hf] at h
    cases h

theorem addStudentResult_ok {r r2 : Result} {sr : StudentResult}
    (h : Result.addStudentResult r sr = .ok r2) :
    r2 = { r with studentResults := mapSet r.studentResults sr.student.rollNumber sr } ∧
    ∀ subj ∈ r.subjects, (sr.marks.map Prod.fst).contains subj.name = true := by
  unfold Result.addStudentResult at h
  rcases hv : Result.validateStudentResult r sr with e | u <;> rw [hv] at h
  · cases h
  · exact ⟨(Except.ok.inj h).symm, validateStudentResult_ok hv⟩

theorem mem_mapSet {α : Type} {m : List (String × α)} {k : String} {v : α} {x : String × α}
    (h : x ∈ mapSet m k v) : x ∈ m ∨ x = (k, v) := by
  induction m with
  | nil => simpa [mapSet] using h
  | cons hd tl ih =>
      obtain ⟨k', v'⟩ := hd
      simp only [mapSet] at h
      by_cases hk : k' = k
      · rw [if_pos hk] at h
        rcases List.mem_cons.mp h with h | h
        · exact Or.inr h
        · exact Or.inl (List.mem_cons_of_mem _ h)
      · rw [if_neg hk] at h
        rcases List.mem_cons.mp h with h | h
        · exact Or.inl (h ▸ List.mem_cons_self _ _)
        · rcases ih h with h2 | h2
          · exact Or.inl (List.mem_cons_of_mem _ h2)
          · exact Or.inr h2

theorem subjectsCovered_add {r r2 : Result} {sr : StudentResult}
    (hr : Result.subjectsCovered r) (h : Result.addStudentResult r sr = .ok r2) :
    Result.subjectsCovered r2 := by
  obtain ⟨h2, hcov⟩ := addStudentResult_ok h
  subst h2
  intro kv hkv subj hsubj
  rcases mem_mapSet hkv with hmem | heq
  · exact hr kv hmem subj hsubj
  · subst heq
    exact hcov subj hsubj

theorem foldlM_add_covered :
    ∀ (l : List StudentResult) (acc r : Result),
      List.foldlM Result.addStudentResult acc l = .ok r →
      Result.subjectsCovered acc → Result.subjectsCovered r := by
  intro l
  induction l with
  | nil =>
      intro acc r h hacc
      simp only [List.foldlM_nil] at h
      cases h
      exact hacc
  | cons x xs ih =>
      intro acc r h hacc
      rw [List.foldlM_cons] at h
      rcases hx : Result.addStudentResult acc x with e | acc2 <;> rw [hx] at h
      · cases h
      · exact ih acc2 r h (subjectsCovered_add hacc hx)

/-- C1 amended: `fromRawData` never fails on account of a missing marks
entry (it records 0 for it — see the counterexample); the invariant part
of the claim holds: every constructed `Result` satisfies the coverage
invariant, `addStudentResult` preserves it, and adding a `StudentResult`
whose marks map lacks some declared subject throws. -/
theorem C1_coverage_invariant_amended :
    (∀ (id title : String) (subjects : List Subject) (srs : List StudentResult) (r : Result),
      Result.create id title subjects srs = .ok r → Result.subjectsCovered r) ∧
    (∀ (r r2 : Result) (sr : StudentResult),
      Result.subjectsCovered r → Result.addStudentResult r sr = .ok r2 →
      Result.subjectsCovered r2) ∧
    (∀ (r : Result) (sr : StudentResult),
      (∃ subj, subj ∈ r.subjects ∧ (sr.marks.map Prod.fst).contains subj.name = false) →
      isOk (Result.addStudentResult r sr) = false) := by
  refine ⟨?_, fun r r2 sr hr h => subjectsCovered_add hr h, ?_⟩
  · intro id title subjects srs r h
    unfold Result.create at h
    rcases hv : Result.validateResult id title subjects with e | u <;> rw [hv] at h
    · cases h
    · refine foldlM_add_covered srs _ r h ?_
      intro kv hkv
      simp at hkv
  · intro r sr ⟨subj, hmem, hmiss⟩
    have hfind : ((r.subjects.map Subject.name).find?
        (fun n => !((sr.marks.map Prod.fst).contains n))).isSome := by
      rw [List.find?_isSome]
      exact ⟨subj.name, List.mem_map_of_mem Subject.name hmem, by simpa using hmiss⟩
    unfold Result.addStudentResult Result.validateStudentResult
    rcases hf : (r.subjects.map Subject.name).find?
        (fun n => !((sr.marks.map Prod.fst).contains n)) with _ | missing
    · rw [hf] at hfind
      cases hfind
    · simp [isOk]

/-- A concrete result set for the C1 witness. -/
def c1witResult : Result :=
  { id := "r", title := "T", subjects := [⟨"Math", 100, false⟩],
    studentResults :=
      [("R1", ⟨⟨"Alice", "R1", none, none⟩, [("Math", ⟨50⟩)], ⟨50⟩, ⟨50⟩, none⟩)],
    maxTotalMarks := 100 }

/-- A student result with no marks entry for subject `Math`. -/
def c1badSr : StudentResult :=
  ⟨⟨"Bobby", "R2", none, none⟩, [("Sci", ⟨40⟩)], ⟨40⟩, ⟨40⟩, none⟩

set_option maxHeartbeats 1600000 in
/-- Witness for C1 amended at concrete inputs. -/
theorem C1_coverage_invariant_amended_witness :
    Result.subjectsCovered c1witResult ∧
    isOk (Result.addStudentResult c1witResult c1badSr) = false :=
  ⟨C1_coverage_invariant_amended.1 "r" "T" [⟨"Math", 100, false⟩]
      [⟨⟨"Alice", "R1", none, none⟩, [("Math", ⟨50⟩)], ⟨50⟩, ⟨50⟩, none⟩] c1witResult
      (by with_unfolding_all decide),
   C1_coverage_invariant_amended.2.2 c1witResult c1badSr
      ⟨⟨"Math", 100, false⟩, by decide, by decide⟩⟩

/-! ## C4: the marks-consistency warning is produced but never recorded -/

/-- A candidate record whose positive subject marks average 4 (< 10), with
all other default rules passing. -/
def c4lowRow : TRow :=
  { studentName := some "Alice Smith", rollNumber := some "R1",
    marks := [("Math", 5), ("Sci", 3)] }

/-- A candidate record whose positive subject marks average 98.5 (> 95). -/
def c4highRow : TRow :=
  { studentName := some "Alice Smith", rollNumber := some "R1",
    marks := [("Math", 98), ("Sci", 99)] }

set_option maxHeartbeats 1600000 in
/-- C4: the `marks_consistency` validator does produce its "please
verify" message for an out-of-band average, but on an `isValid := true`
verdict — and `validateRow` records a message only when the verdict is
invalid, so the row result carries *no* warning at all (and the record is
not marked invalid). -/
theorem C4_consistency_warning_dropped :
    (ruleMarksConsistency.validator c4lowRow).isValid = true ∧
    (ruleMarksConsistency.validator c4lowRow).message =
      some "Very low average marks - please verify data" ∧
    validateRow c4lowRow 0 DEFAULT_RULES =
      { rowIndex := 0, isValid := true, errors := [], warnings := [] } ∧
    (ruleMarksConsistency.validator c4highRow).message =
      some "Very high average marks - please verify data" ∧
    validateRow c4highRow 1 DEFAULT_RULES =
      { rowIndex := 1, isValid := true, errors := [], warnings := [] } := by
  with_unfolding_all decide

/-! ## C10: `addStudentResult` keys entries by the exact trimmed roll number -/

theorem mapGet_mapSet_self {α : Type} (m : List (String × α)) (k : String) (v : α) :
    mapGet (mapSet m k v) k = some v := by
  induction m with
  | nil => simp [mapSet, mapGet]
  | cons hd tl ih =>
      obtain ⟨k', v'⟩ := hd
      by_cases hk : k' = k
      · simp [mapSet, mapGet, hk]
      · simp [mapSet, mapGet, hk, ih]

theorem mapGet_mapSet_ne {α : Type} (m : List (String × α)) (k : String) (v : α)
    (k2 : String) (h : k2 ≠ k) : mapGet (mapSet m k v) k2 = mapGet m k2 := by
  have hne : k ≠ k2 := fun he => h he.symm
  induction m with
  | nil => simp [mapSet, mapGet, hne]
  | cons hd tl ih =>
      obtain ⟨k', v'⟩ := hd
      by_cases hk : k' = k
      · subst hk
        simp [mapSet, mapGet, hne]
      · by_cases hk2 : k' = k2
        · simp [mapSet, mapGet, hk, hk2, h]
        · simp [mapSet, mapGet, hk, hk2, ih]

theorem length_mapSet_of_isSome {α : Type} (m : List (String × α)) (k : String) (v : α)
    (h : (mapGet m k).isSome = true) : (mapSet m k v).length = m.length := by
  induction m with
  | nil => simp [mapGet] at h
  | cons hd tl ih =>
      obtain ⟨k', v'⟩ := hd
      by_cases hk : k' = k
      · simp [mapSet, hk]
      · simp only [mapGet, if_neg hk] at h
        simp [mapSet, hk, ih h]

theorem length_mapSet_of_none {α : Type} (m : List (String × α)) (k : String) (v : α)
    (h : (mapGet m k).isSome = false) : (mapSet m k v).length = m.length + 1 := by
  induction m with
  | nil => simp [mapSet]
  | cons hd tl ih =>
      obtain ⟨k', v'⟩ := hd
      by_cases hk : k' = k
      · simp [mapGet, hk] at h
      · simp only [mapGet, if_neg hk] at h
        simp [mapSet, hk, ih h]

/-- C10: the `Student` constructor stores the trimmed roll number, and
`addStudentResult` keys the map by exactly that string: when the exact key
is already present the entry is replaced silently (same student count, the
other entries untouched); when it is absent — also when an existing key
differs only in letter case — a distinct new entry is appended (count
grows by one); and a covering student result is never rejected. -/
theorem C10_addStudentResult_keying :
    (∀ (name roll : String) (c s : Option String) (st : Student),
      Student.create name roll c s = .ok st → st.rollNumber = jsTrim roll) ∧
    (∀ (r : Result) (sr : StudentResult),
      (∀ subj ∈ r.subjects, (sr.marks.map Prod.fst).contains subj.name = true) →
      isOk (Result.addStudentResult r sr) = true) ∧
    (∀ (r : Result) (sr : StudentResult) (r2 : Result),
      Result.addStudentResult r sr = .ok r2 →
      (mapGet r.studentResults sr.student.rollNumber).isSome = true →
      r2.getStudentCount = r.getStudentCount ∧
      mapGet r2.studentResults sr.student.rollNumber = some sr ∧
      ∀ k, k ≠ sr.student.rollNumber →
        mapGet r2.studentResults k = mapGet r.studentResults k) ∧
    (∀ (r : Result) (sr : StudentResult) (r2 : Result),
      Result.addStudentResult r sr = .ok r2 →
      (mapGet r.studentResults sr.student.rollNumber).isSome = false →
      r2.getStudentCount = r.getStudentCount + 1 ∧
      mapGet r2.studentResults sr.student.rollNumber = some sr ∧
      ∀ k, k ≠ sr.student.rollNumber →
        mapGet r2.studentResults k = mapGet r.studentResults k) := by
  refine ⟨?_, ?_, ?_, ?_⟩
  · intro name roll c s st h
    unfold Student.create at h
    rcases hv : Student.validateStudent name roll with e | u <;> rw [hv] at h
    · cases h
    · cases h
      rfl
  · intro r sr hcov
    have hfind : (r.subjects.map Subject.name).find?
        (fun n => !((sr.marks.map Prod.fst).contains n)) = none := by
      rw [List.find?_eq_none]
      intro n hn
      obtain ⟨subj, hsubj, rfl⟩ := List.mem_map.mp hn
      have hc := hcov subj hsubj
      simp only [hc, Bool.not_true]
      exact Bool.false_ne_true
    unfold Result.addStudentResult Result.validateStudentResult
    rw [hfind]
    rfl
  · intro r sr r2 h hsome
    obtain ⟨rfl, -⟩ := addStudentResult_ok h
    exact ⟨length_mapSet_of_isSome _ _ _ hsome,
      mapGet_mapSet_self _ _ _, fun k hk => mapGet_mapSet_ne _ _ _ _ hk⟩
  · intro r sr r2 h hnone
    obtain ⟨rfl, -⟩ := addStudentResult_ok h
    exact ⟨length_mapSet_of_none _ _ _ hnone,
      mapGet_mapSet_self _ _ _, fun k hk => mapGet_mapSet_ne _ _ _ _ hk⟩

/-- Concrete data for the C10 witness: a result holding roll `ab1`. -/
def c10sr1 : StudentResult :=
  ⟨⟨"Alice", "ab1", none, none⟩, [("Math", ⟨50⟩)], ⟨50⟩, ⟨50⟩, none⟩

/-- A replacement entry with the same exact roll `ab1`. -/
def c10sr1b : StudentResult :=
  ⟨⟨"Alice", "ab1", none, none⟩, [("Math", ⟨60⟩)], ⟨60⟩, ⟨60⟩, none⟩

/-- An entry whose roll `AB1` differs from `ab1` only in letter case. -/
def c10sr2 : StudentResult :=
  ⟨⟨"Bobby", "AB1", none, none⟩, [("Math", ⟨70⟩)], ⟨70⟩, ⟨70⟩, none⟩

def c10result : Result :=
  { id := "r", title := "T", subjects := [⟨"Math", 100, false⟩],
    studentResults := [("ab1", c10sr1)], maxTotalMarks := 100 }

/-- `c10result` after replacing the `ab1` entry. -/
def c10resultB : Result :=
  { c10result with studentResults := [("ab1", c10sr1b)] }

/-- `c10result` after adding the case-differing roll `AB1`. -/
def c10resultC : Result :=
  { c10result with studentResults := [("ab1", c10sr1), ("AB1", c10sr2)] }

set_option maxHeartbeats 1600000 in
/-- Witness for C10: replacing at the exact key keeps the count at 1;
adding a roll differing only in case yields two distinct entries. -/
theorem C10_addStudentResult_keying_witness :
    (c10resultB.getStudentCount = c10result.getStudentCount ∧
     mapGet c10resultB.studentResults "ab1" = some c10sr1b) ∧
    (c10resultC.getStudentCount = c10result.getStudentCount + 1 ∧
     mapGet c10resultC.studentResults "AB1" = some c10sr2) ∧
    mapGet c10resultC.studentResults "ab1" = some c10sr1 :=
  have hrepl := C10_addStudentResult_keying.2.2.1 c10result c10sr1b c10resultB
    (by with_unfolding_all decide) (by decide)
  have happ := C10_addStudentResult_keying.2.2.2 c10result c10sr2 c10resultC
    (by with_unfolding_all decide) (by decide)
  ⟨⟨hrepl.1, hrepl.2.1⟩, ⟨happ.1, happ.2.1⟩,
   (happ.2.2 "ab1" (by decide)).trans (by decide)⟩

/-! ## C9: `calculateRanks` is idempotent -/

/-- The per-entry effect of `calculateRanks` on a student result: take the
rank its record received in the ranked sequence `e` (records are found by
roll number; an absent record keeps its rank). -/
def applyRankFrom (e : List StudentResult) (sr : StudentResult) : StudentResult :=
  { sr with
    rank := match e.find? (fun x => x.student.rollNumber = sr.student.rollNumber) with
            | some x => x.rank
            | none => sr.rank }

theorem orderedInsert_map_of_rel (f : StudentResult → StudentResult)
    (hrel : ∀ a b, rankLE (f a) (f b) ↔ rankLE a b) (a : StudentResult) :
    ∀ l : List StudentResult,
      (l.map f).orderedInsert rankLE (f a) = (l.orderedInsert rankLE a).map f := by
  intro l
  induction l with
  | nil => simp [List.orderedInsert]
  | cons b tl ih =>
      simp only [List.map_cons, List.orderedInsert]
      by_cases h : rankLE a b
      · rw [if_pos ((hrel a b).mpr h), if_pos h]
        simp
      · rw [if_neg (fun hc => h ((hrel a b).mp hc)), if_neg h]
        simp [ih]

theorem insertionSort_map_of_rel (f : StudentResult → StudentResult)
    (hrel : ∀ a b, rankLE (f a) (f b) ↔ rankLE a b) :
    ∀ l : List StudentResult,
      (l.map f).insertionSort rankLE = (l.insertionSort rankLE).map f := by
  intro l
  induction l with
  | nil => simp [List.insertionSort]
  | cons a tl ih =>
      simp only [List.map_cons, List.insertionSort]
      rw [ih, orderedInsert_map_of_rel f hrel]

theorem rankGo_map_rankOnly (f : StudentResult → StudentResult)
    (hstudent : ∀ x, (f x).student = x.student)
    (hmarks : ∀ x, (f x).marks = x.marks)
    (htotal : ∀ x, (f x).totalMarks = x.totalMarks)
    (hpct : ∀ x, (f x).percentage = x.percentage) :
    ∀ (l : List StudentResult) (i cur : ℕ) (prev : Option ℚ),
      rankGo i cur prev (l.map f) = rankGo i cur prev l := by
  intro l
  induction l with
  | nil => intro i cur prev; rfl
  | cons x xs ih =>
      intro i cur prev
      simp only [List.map_cons, rankGo]
      rw [hpct x]
      refine congrArg₂ List.cons ?_ (ih _ _ _)
      have hx : f x = ⟨x.student, x.marks, x.totalMarks, x.percentage, (f x).rank⟩ := by
        rw [← hstudent x, ← hmarks x, ← htotal x, ← hpct x]
      rw [hx]

theorem applyRankFrom_rel (e : List StudentResult) (a b : StudentResult) :
    rankLE (applyRankFrom e a) (applyRankFrom e b) ↔ rankLE a b := Iff.rfl

theorem calcRanks_entries (r : Result)
    (hkeys : ∀ kv ∈ r.studentResults, kv.1 = kv.2.student.rollNumber) :
    (r.calculateRanks).studentResults =
      r.studentResults.map (fun kv => (kv.1, applyRankFrom r.rankedSequence kv.2)) := by
  unfold Result.calculateRanks
  refine List.map_congr_left ?_
  intro kv hkv
  rw [hkeys kv hkv]
  rfl

theorem rankedSequence_calcRanks (r : Result)
    (hkeys : ∀ kv ∈ r.studentResults, kv.1 = kv.2.student.rollNumber) :
    (r.calculateRanks).rankedSequence = r.rankedSequence := by
  unfold Result.rankedSequence assignRanks
  have hvals : (r.calculateRanks).getStudentResults =
      r.getStudentResults.map (applyRankFrom r.rankedSequence) := by
    unfold Result.getStudentResults
    rw [calcRanks_entries r hkeys, List.map_map, List.map_map]
    rfl
  rw [hvals, insertionSort_map_of_rel _ (applyRankFrom_rel r.rankedSequence),
    rankGo_map_rankOnly (applyRankFrom r.rankedSequence)
      (fun x => rfl) (fun x => rfl) (fun x => rfl) (fun x => rfl)]

theorem applyRankFrom_idem (e : List StudentResult) (sr : StudentResult) :
    applyRankFrom e (applyRankFrom e sr) = applyRankFrom e sr := by
  rcases h : e.find? (fun x => x.student.rollNumber = sr.student.rollNumber) with _ | x <;>
    simp [applyRankFrom, h]

/-- C9: `calculateRanks` is idempotent — a second invocation leaves every
stored student result (in particular every rank) unchanged.  (The
hypothesis is the `Result` class invariant: every map entry is keyed by
its student's roll number, which `addStudentResult` guarantees.) -/
theorem C9_calculateRanks_idempotent (r : Result)
    (hkeys : ∀ kv ∈ r.studentResults, kv.1 = kv.2.student.rollNumber) :
    (r.calculateRanks).calculateRanks = r.calculateRanks := by
  have hkeys1 : ∀ kv ∈ (r.calculateRanks).studentResults, kv.1 = kv.2.student.rollNumber := by
    intro kv hkv
    rw [calcRanks_entries r hkeys] at hkv
    obtain ⟨kv0, hkv0, rfl⟩ := List.mem_map.mp hkv
    exact hkeys kv0 hkv0
  have hS : ((r.calculateRanks).calculateRanks).studentResults =
      (r.calculateRanks).studentResults := by
    rw [calcRanks_entries (r.calculateRanks) hkeys1, rankedSequence_calcRanks r hkeys,
      calcRanks_entries r hkeys, List.map_map]
    refine List.map_congr_left ?_
    intro kv hkv
    simp only [Function.comp_apply]
    rw [applyRankFrom_idem]
  have h2 : (r.calculateRanks).calculateRanks =
      { r.calculateRanks with
        studentResults := ((r.calculateRanks).calculateRanks).studentResults } := rfl
  rw [hS] at h2
  exact h2

/-- A concrete two-student result for the C9 witness. -/
def c9result : Result :=
  { id := "r", title := "T", subjects := [⟨"Math", 100, false⟩],
    studentResults :=
      [("R1", ⟨⟨"Alice", "R1", none, none⟩, [("Math", ⟨50⟩)], ⟨50⟩, ⟨50⟩, none⟩),
       ("R2", ⟨⟨"Bobby", "R2", none, none⟩, [("Math", ⟨80⟩)], ⟨80⟩, ⟨80⟩, none⟩)],
    maxTotalMarks := 100 }

/-- Witness for C9 at a concrete result. -/
theorem C9_calculateRanks_idempotent_witness :
    (c9result.calculateRanks).calculateRanks = c9result.calculateRanks :=
  C9_calculateRanks_idempotent c9result (by decide)

/-! ## C3: the ranking specification -/

/-- The score projection the comparator reads: (percentage, total marks). -/
def projPT (sr : StudentResult) : ℚ × ℚ := (sr.percentage.val, sr.totalMarks.val)

/-- The comparator's order on score projections. -/
def pairLE (x y : ℚ × ℚ) : Prop := y.1 < x.1 ∨ (y.1 = x.1 ∧ y.2 ≤ x.2)

/-- A student result with its rank erased. -/
def clearRank (sr : StudentResult) : StudentResult := { sr with rank := none }

theorem length_rankGo : ∀ (l : List StudentResult) (i cur : ℕ) (prev : Option ℚ),
    (rankGo i cur prev l).length = l.length := by
  intro l
  induction l with
  | nil => intro i cur prev; rfl
  | cons x xs ih => intro i cur prev; simp [rankGo, ih]

theorem rankGo_map_projPT : ∀ (l : List StudentResult) (i cur : ℕ) (prev : Option ℚ),
    (rankGo i cur prev l).map projPT = l.map projPT := by
  intro l
  induction l with
  | nil => intro i cur prev; rfl
  | cons x xs ih =>
      intro i cur prev
      simp only [rankGo, List.map_cons, ih]
      rfl

theorem rankGo_map_clearRank : ∀ (l : List StudentResult) (i cur : ℕ) (prev : Option ℚ),
    (rankGo i cur prev l).map clearRank = l.map clearRank := by
  intro l
  induction l with
  | nil => intro i cur prev; rfl
  | cons x xs ih =>
      intro i cur prev
      simp only [rankGo, List.map_cons, ih]
      rfl

theorem sorted_of_map_projPT_eq {l l' : List StudentResult}
    (h : l.map projPT = l'.map projPT) (hs : List.Sorted rankLE l') :
    List.Sorted rankLE l := by
  have h1 : (l'.map projPT).Pairwise pairLE := by
    rw [List.pairwise_map]
    exact hs
  rw [← h, List.pairwise_map] at h1
  exact h1

theorem sorted_rankedSequence (r : Result) : List.Sorted rankLE r.rankedSequence := by
  unfold Result.rankedSequence assignRanks
  exact sorted_of_map_projPT_eq (rankGo_map_projPT _ 0 1 none)
    (List.sorted_insertionSort rankLE r.getStudentResults)

theorem rankedSequence_perm (r : Result) :
    (r.rankedSequence.map clearRank).Perm (r.getStudentResults.map clearRank) := by
  unfold Result.rankedSequence assignRanks
  rw [rankGo_map_clearRank]
  exact (List.perm_insertionSort rankLE r.getStudentResults).map clearRank

theorem rankGo_head_rank (x : StudentResult) (xs : List StudentResult) (h : _) :
    ((rankGo 0 1 none (x :: xs)).get ⟨0, h⟩).rank = some 1 := by
  simp [rankGo]

theorem rankGo_get_pct :
    ∀ (l : List StudentResult) (i cur : ℕ) (prev : Option ℚ) (j : ℕ)
      (hR : j < (rankGo i cur prev l).length) (h : j < l.length),
      ((rankGo i cur prev l).get ⟨j, hR⟩).percentage = (l.get ⟨j, h⟩).percentage := by
  intro l
  induction l with
  | nil => intro i cur prev j hR h; cases h
  | cons x xs ih =>
      intro i cur prev j hR h
      cases j with
      | zero => rfl
      | succ j' =>
          have hR' : j' < (rankGo (i + 1)
              (if i > 0 ∧ prev ≠ some x.percentage.val then i + 1 else cur)
              (some x.percentage.val) xs).length := by
            rw [length_rankGo]
            exact Nat.succ_lt_succ_iff.mp h
          exact ih _ _ _ j' hR' (Nat.succ_lt_succ_iff.mp h)

theorem rankGo_get_rank :
    ∀ (l : List StudentResult) (i cur : ℕ) (prev : Option ℚ) (j : ℕ)
      (h1 : j + 1 < l.length) (h1R : j + 1 < (rankGo i cur prev l).length)
      (h0 : j < l.length) (h0R : j < (rankGo i cur prev l).length),
      ((rankGo i cur prev l).get ⟨j + 1, h1R⟩).rank =
        (if (l.get ⟨j + 1, h1⟩).percentage.val = (l.get ⟨j, h0⟩).percentage.val
         then ((rankGo i cur prev l).get ⟨j, h0R⟩).rank
         else some (i + j + 2)) := by
  intro l
  induction l with
  | nil => intro i cur prev j h1 h1R h0 h0R; cases h1
  | cons x xs ih =>
      intro i cur prev j h1 h1R h0 h0R
      cases xs with
      | nil => simp at h1
      | cons y ys =>
          cases j with
          | zero =>
              have hget1 : (x :: y :: ys).get ⟨0 + 1, h1⟩ = y := rfl
              have hget0 : (x :: y :: ys).get ⟨0, h0⟩ = x := rfl
              have hL : ((rankGo i cur prev (x :: y :: ys)).get ⟨0 + 1, h1R⟩).rank =
                  some (if i + 1 > 0 ∧ some x.percentage.val ≠ some y.percentage.val
                        then i + 1 + 1
                        else if i > 0 ∧ prev ≠ some x.percentage.val then i + 1 else cur) := rfl
              have hR0 : ((rankGo i cur prev (x :: y :: ys)).get ⟨0, h0R⟩).rank =
                  some (if i > 0 ∧ prev ≠ some x.percentage.val then i + 1 else cur) := rfl
              rw [hL, hR0, hget1, hget0]
              by_cases he : y.percentage.val = x.percentage.val
              · rw [if_pos he]
                have hcond : ¬ (i + 1 > 0 ∧ some x.percentage.val ≠ some y.percentage.val) :=
                  fun hc => hc.2 (congrArg some he.symm)
                rw [if_neg hcond]
              · rw [if_neg he]
                have hcond : i + 1 > 0 ∧ some x.percentage.val ≠ some y.percentage.val :=
                  ⟨Nat.succ_pos i, fun hc => he (Option.some.inj hc).symm⟩
                rw [if_pos hcond]
          | succ j' =>
              have h1' : j' + 1 < (y :: ys).length := Nat.succ_lt_succ_iff.mp h1
              have h0' : j' < (y :: ys).length := Nat.succ_lt_succ_iff.mp h0
              have h1R' : j' + 1 < (rankGo (i + 1)
                  (if i > 0 ∧ prev ≠ some x.percentage.val then i + 1 else cur)
                  (some x.percentage.val) (y :: ys)).length := by
                rw [length_rankGo]
                exact h1'
              have h0R' : j' < (rankGo (i + 1)
                  (if i > 0 ∧ prev ≠ some x.percentage.val then i + 1 else cur)
                  (some x.percentage.val) (y :: ys)).length := by
                rw [length_rankGo]
                exact h0'
              have hres := ih (i + 1) _ (some x.percentage.val) j' h1' h1R' h0' h0R'
              simp only [rankGo, List.get] at hres ⊢
              rw [hres]
              have harith : i + 1 + j' + 2 = i + (j' + 1) + 2 := by omega
              rw [harith]

/-- Four students with percentages 95, 88, 82, 78. -/
def desc95888278 : RawResultData :=
  oneSubjectRaw "Ranking"
    [("001", "Aa Bb", 95), ("002", "Cc Dd", 88), ("003", "Ee Ff", 82), ("004", "Gg Hh", 78)]

set_option maxHeartbeats 1600000 in
/-- C3: for every result with a non-empty student list, the ranked
sequence built by `calculateRanks` is the student results (ranks aside)
ordered by percentage descending with ties broken by total marks
descending; its first record has rank 1; each subsequent record keeps its
predecessor's rank exactly when its percentage equals the predecessor's
and otherwise receives its 1-based position; and concretely percentages
[95, 88, 82, 78] receive ranks [1, 2, 3, 4]. -/
theorem C3_calculateRanks_spec :
    (∀ r : Result, r.getStudentResults ≠ [] →
      List.Sorted rankLE r.rankedSequence ∧
      (r.rankedSequence.map clearRank).Perm (r.getStudentResults.map clearRank) ∧
      (∀ hd, r.rankedSequence.head? = some hd → hd.rank = some 1) ∧
      (∀ (j : ℕ) (h1 : j + 1 < r.rankedSequence.length) (h0 : j < r.rankedSequence.length),
        (r.rankedSequence.get ⟨j + 1, h1⟩).rank =
          (if (r.rankedSequence.get ⟨j + 1, h1⟩).percentage.val
              = (r.rankedSequence.get ⟨j, h0⟩).percentage.val
           then (r.rankedSequence.get ⟨j, h0⟩).rank
           else some (j + 2)))) ∧
    (rankOfRoll (Result.fromRawData desc95888278) "001" = some 1 ∧
     rankOfRoll (Result.fromRawData desc95888278) "002" = some 2 ∧
     rankOfRoll (Result.fromRawData desc95888278) "003" = some 3 ∧
     rankOfRoll (Result.fromRawData desc95888278) "004" = some 4) := by
  constructor
  · intro r hne
    refine ⟨sorted_rankedSequence r, rankedSequence_perm r, ?_, ?_⟩
    · intro hd hhd
      rcases hs : r.getStudentResults.insertionSort rankLE with _ | ⟨x, xs⟩
      · have : r.getStudentResults = [] := by
          have := List.perm_insertionSort rankLE r.getStudentResults
          rw [hs] at this
          exact (List.Perm.nil_eq this).symm
        exact absurd this hne
      · have : r.rankedSequence = rankGo 0 1 none (x :: xs) := by
          unfold Result.rankedSequence assignRanks
          rw [hs]
        rw [this] at hhd
        simp only [rankGo, List.head?_cons, Option.some.injEq] at hhd
        rw [← hhd]
        simp
    · intro j h1 h0
      unfold Result.rankedSequence assignRanks at h1 h0 ⊢
      have h1L : j + 1 < (r.getStudentResults.insertionSort rankLE).length := by
        rw [← length_rankGo _ 0 1 none]
        exact h1
      have h0L : j < (r.getStudentResults.insertionSort rankLE).length := by
        rw [← length_rankGo _ 0 1 none]
        exact h0
      rw [rankGo_get_rank _ 0 1 none j h1L h1 h0L h0]
      rw [rankGo_get_pct _ 0 1 none (j + 1) h1 h1L, rankGo_get_pct _ 0 1 none j h0 h0L]
      norm_num
  · with_unfolding_all decide

/-- A concrete two-student result for the C3 witness. -/
def c3wit : Result :=
  { id := "r", title := "T", subjects := [⟨"Math", 100, false⟩],
    studentResults :=
      [("S1", ⟨⟨"Alice", "S1", none, none⟩, [("Math", ⟨90⟩)], ⟨90⟩, ⟨90⟩, none⟩),
       ("S2", ⟨⟨"Bobby", "S2", none, none⟩, [("Math", ⟨70⟩)], ⟨70⟩, ⟨70⟩, none⟩)],
    maxTotalMarks := 100 }

set_option maxHeartbeats 1600000 in
/-- Witness for C3 at a concrete two-student result. -/
theorem C3_calculateRanks_spec_witness :
    List.Sorted rankLE c3wit.rankedSequence ∧
    (c3wit.rankedSequence.map clearRank).Perm (c3wit.getStudentResults.map clearRank) ∧
    (match c3wit.rankedSequence.head? with
     | some hd => hd.rank
     | none => none) = some 1 ∧
    (c3wit.rankedSequence.get ⟨0 + 1, by with_unfolding_all decide⟩).rank =
      (if (c3wit.rankedSequence.get ⟨0 + 1, by with_unfolding_all decide⟩).percentage.val
          = (c3wit.rankedSequence.get ⟨0, by with_unfolding_all decide⟩).percentage.val
       then (c3wit.rankedSequence.get ⟨0, by with_unfolding_all decide⟩).rank
       else some (0 + 2)) := by
  have h := C3_calculateRanks_spec.1 c3wit (by with_unfolding_all decide)
  refine ⟨h.1, h.2.1, ?_, ?_⟩
  · have hhd : c3wit.rankedSequence.head? =
        some ⟨⟨"Alice", "S1", none, none⟩, [("Math", ⟨90⟩)], ⟨90⟩, ⟨90⟩, some 1⟩ := by
      with_unfolding_all decide
    have hrank := h.2.2.1 _ hhd
    rw [hhd]
  · exact h.2.2.2 0 (by with_unfolding_all decide) (by with_unfolding_all decide)

/-! ## C8: the marks-distribution buckets -/

/-- The default distribution ranges. -/
def defaultRanges : List ℚ := [0, 40, 60, 75, 90, 100]

theorem mapGet_incKey_self (d : List (String × ℕ)) (k : String) :
    mapGet (incKey d k) k = (mapGet d k).map (fun n => n + 1) := by
  induction d with
  | nil => rfl
  | cons hd tl ih =>
      obtain ⟨k', v⟩ := hd
      by_cases hk : k' = k
      · simp only [incKey, List.map_cons] at *
        rw [if_pos hk]
        simp only [mapGet]
        rw [if_pos hk, if_pos hk]
        rfl
      · simp only [incKey, List.map_cons] at *
        rw [if_neg hk]
        simp only [mapGet]
        rw [if_neg hk, if_neg hk]
        exact ih

theorem mapGet_incKey_ne (d : List (String × ℕ)) (k k2 : String) (h : k2 ≠ k) :
    mapGet (incKey d k) k2 = mapGet d k2 := by
  induction d with
  | nil => rfl
  | cons hd tl ih =>
      obtain ⟨k', v⟩ := hd
      by_cases hk : k' = k
      · have hne : ¬ k' = k2 := fun he => h (he ▸ hk)
        simp only [incKey, List.map_cons] at *
        rw [if_pos hk]
        simp only [mapGet]
        rw [if_neg hne, if_neg hne]
        exact ih
      · by_cases hk2 : k' = k2
        · simp only [incKey, List.map_cons] at *
          rw [if_neg hk]
          simp only [mapGet]
          rw [if_pos hk2, if_pos hk2]
        · simp only [incKey, List.map_cons] at *
          rw [if_neg hk]
          simp only [mapGet]
          rw [if_neg hk2, if_neg hk2]
          exact ih

theorem option_map_add_zero (o : Option ℕ) : o.map (fun n => n + 0) = o := by
  cases o <;> rfl

theorem find?_pred_cons_pos (p : ℚ) (a : ℚ × ℚ) (l : List (ℚ × ℚ))
    (h : a.1 ≤ p ∧ p < a.2) :
    (a :: l).find? (fun pr => decide (pr.1 ≤ p ∧ p < pr.2)) = some a :=
  List.find?_cons_of_pos _ (decide_eq_true h)

theorem find?_pred_cons_neg (p : ℚ) (a : ℚ × ℚ) (l : List (ℚ × ℚ))
    (h : ¬ (a.1 ≤ p ∧ p < a.2)) :
    (a :: l).find? (fun pr => decide (pr.1 ≤ p ∧ p < pr.2)) =
      l.find? (fun pr => decide (pr.1 ≤ p ∧ p < pr.2)) :=
  List.find?_cons_of_neg _ (by simpa using h)

theorem distStep_default (d : List (String × ℕ)) (p : ℚ) (h0 : 0 ≤ p) (h100 : p ≤ 100) :
    mapGet (distStep defaultRanges d p) "0-40%"
      = (mapGet d "0-40%").map (fun n => n + if 0 ≤ p ∧ p < 40 then 1 else 0) ∧
    mapGet (distStep defaultRanges d p) "40-60%"
      = (mapGet d "40-60%").map (fun n => n + if 40 ≤ p ∧ p < 60 then 1 else 0) ∧
    mapGet (distStep defaultRanges d p) "60-75%"
      = (mapGet d "60-75%").map (fun n => n + if 60 ≤ p ∧ p < 75 then 1 else 0) ∧
    mapGet (distStep defaultRanges d p) "75-90%"
      = (mapGet d "75-90%").map (fun n => n + if 75 ≤ p ∧ p < 90 then 1 else 0) ∧
    mapGet (distStep defaultRanges d p) "90-100%"
      = (mapGet d "90-100%").map (fun n => n + if 90 ≤ p ∧ p ≤ 100 then 1 else 0) := by
  have hpairs : rangePairs defaultRanges =
      [((0 : ℚ), (40 : ℚ)), (40, 60), (60, 75), (75, 90), (90, 100)] := by
    with_unfolding_all decide
  by_cases hp : p = 100
  · subst hp
    have hb : bucketKey defaultRanges 100 = none := by
      with_unfolding_all decide
    have hstep : distStep defaultRanges d 100 = incKey d "90-100%" := by
      unfold distStep
      rw [hb]
      dsimp only
      rw [if_pos rfl, hpairs]
      rw [show (([((0 : ℚ), (40 : ℚ)), (40, 60), (60, 75), (75, 90), (90, 100)]).getLast?)
          = some ((90 : ℚ), (100 : ℚ)) from by with_unfolding_all decide]
      dsimp only
      rw [show rangeKey 90 100 = "90-100%" from by with_unfolding_all decide]
    rw [hstep]
    refine ⟨?_, ?_, ?_, ?_, ?_⟩
    · rw [mapGet_incKey_ne _ _ _ (by decide), if_neg (by norm_num), option_map_add_zero]
    · rw [mapGet_incKey_ne _ _ _ (by decide), if_neg (by norm_num), option_map_add_zero]
    · rw [mapGet_incKey_ne _ _ _ (by decide), if_neg (by norm_num), option_map_add_zero]
    · rw [mapGet_incKey_ne _ _ _ (by decide), if_neg (by norm_num), option_map_add_zero]
    · rw [mapGet_incKey_self, if_pos (by norm_num)]
  · have hlt : p < 100 := lt_of_le_of_ne h100 hp
    have hbstep : ∀ K, bucketKey defaultRanges p = some K →
        distStep defaultRanges d p = incKey d K := by
      intro K hbK
      unfold distStep
      rw [hbK]
      dsimp only
      rw [if_neg hp]
    rcases lt_or_le p 40 with hA | hA
    · -- 0 ≤ p < 40
      have hb : bucketKey defaultRanges p = some "0-40%" := by
        unfold bucketKey
        rw [hpairs, find?_pred_cons_pos p (0, 40) _ ⟨h0, hA⟩]
        with_unfolding_all decide
      rw [hbstep _ hb]
      refine ⟨?_, ?_, ?_, ?_, ?_⟩
      · rw [mapGet_incKey_self, if_pos ⟨h0, hA⟩]
      · rw [mapGet_incKey_ne _ _ _ (by decide),
          if_neg (fun hc => not_lt.mpr hc.1 hA), option_map_add_zero]
      · rw [mapGet_incKey_ne _ _ _ (by decide),
          if_neg (fun hc => not_lt.mpr (le_trans (by norm_num) hc.1) hA), option_map_add_zero]
      · rw [mapGet_incKey_ne _ _ _ (by decide),
          if_neg (fun hc => not_lt.mpr (le_trans (by norm_num) hc.1) hA), option_map_add_zero]
      · rw [mapGet_incKey_ne _ _ _ (by decide),
          if_neg (fun hc => not_lt.mpr (le_trans (by norm_num) hc.1) hA), option_map_add_zero]
    rcases lt_or_le p 60 with hB | hB
    · -- 40 ≤ p < 60
      have hb : bucketKey defaultRanges p = some "40-60%" := by
        unfold bucketKey
        rw [hpairs, find?_pred_cons_neg p (0, 40) _ (fun hc => not_lt.mpr hA hc.2),
          find?_pred_cons_pos p (40, 60) _ ⟨hA, hB⟩]
        with_unfolding_all decide
      rw [hbstep _ hb]
      refine ⟨?_, ?_, ?_, ?_, ?_⟩
      · rw [mapGet_incKey_ne _ _ _ (by decide),
          if_neg (fun hc => not_lt.mpr hA hc.2), option_map_add_zero]
      · rw [mapGet_incKey_self, if_pos ⟨hA, hB⟩]
      · rw [mapGet_incKey_ne _ _ _ (by decide),
          if_neg (fun hc => not_lt.mpr hc.1 hB), option_map_add_zero]
      · rw [mapGet_incKey_ne _ _ _ (by decide),
          if_neg (fun hc => not_lt.mpr (le_trans (by norm_num) hc.1) hB), option_map_add_zero]
      · rw [mapGet_incKey_ne _ _ _ (by decide),
          if_neg (fun hc => not_lt.mpr (le_trans (by norm_num) hc.1) hB), option_map_add_zero]
    rcases lt_or_le p 75 with hC | hC
    · -- 60 ≤ p < 75
      have hb : bucketKey defaultRanges p = some "60-75%" := by
        unfold bucketKey
        rw [hpairs,
          find?_pred_cons_neg p (0, 40) _
            (fun hc => not_lt.mpr (le_trans (by norm_num) hB) hc.2),
          find?_pred_cons_neg p (40, 60) _ (fun hc => not_lt.mpr hB hc.2),
          find?_pred_cons_pos p (60, 75) _ ⟨hB, hC⟩]
        with_unfolding_all decide
      rw [hbstep _ hb]
      refine ⟨?_, ?_, ?_, ?_, ?_⟩
      · rw [mapGet_incKey_ne _ _ _ (by decide),
          if_neg (fun hc => not_lt.mpr (le_trans (by norm_num) hB) hc.2), option_map_add_zero]
      · rw [mapGet_incKey_ne _ _ _ (by decide),
          if_neg (fun hc => not_lt.mpr hB hc.2), option_map_add_zero]
      · rw [mapGet_incKey_self, if_pos ⟨hB, hC⟩]
      · rw [mapGet_incKey_ne _ _ _ (by decide),
          if_neg (fun hc => not_lt.mpr hc.1 hC), option_map_add_zero]
      · rw [mapGet_incKey_ne _ _ _ (by decide),
          if_neg (fun hc => not_lt.mpr (le_trans (by norm_num) hc.1) hC), option_map_add_zero]
    rcases lt_or_le p 90 with hD | hD
    · -- 75 ≤ p < 90
      have hb : bucketKey defaultRanges p = some "75-90%" := by
        unfold bucketKey
        rw [hpairs,
          find?_pred_cons_neg p (0, 40) _
            (fun hc => not_lt.mpr (le_trans (by norm_num) hC) hc.2),
          find?_pred_cons_neg p (40, 60) _
            (fun hc => not_lt.mpr (le_trans (by norm_num) hC) hc.2),
          find?_pred_cons_neg p (60, 75) _ (fun hc => not_lt.mpr hC hc.2),
          find?_pred_cons_pos p (75, 90) _ ⟨hC, hD⟩]
        with_unfolding_all decide
      rw [hbstep _ hb]
      refine ⟨?_, ?_, ?_, ?_, ?_⟩
      · rw [mapGet_incKey_ne _ _ _ (by decide),
          if_neg (fun hc => not_lt.mpr (le_trans (by norm_num) hC) hc.2), option_map_add_zero]
      · rw [mapGet_incKey_ne _ _ _ (by decide),
          if_neg (fun hc => not_lt.mpr (le_trans (by norm_num) hC) hc.2), option_map_add_zero]
      · rw [mapGet_incKey_ne _ _ _ (by decide),
          if_neg (fun hc => not_lt.mpr hC hc.2), option_map_add_zero]
      · rw [mapGet_incKey_self, if_pos ⟨hC, hD⟩]
      · rw [mapGet_incKey_ne _ _ _ (by decide),
          if_neg (fun hc => not_lt.mpr (le_trans (by norm_num) hc.1) hD), option_map_add_zero]
    · -- 90 ≤ p < 100
      have hb : bucketKey defaultRanges p = some "90-100%" := by
        unfold bucketKey
        rw [hpairs,
          find?_pred_cons_neg p (0, 40) _
            (fun hc => not_lt.mpr (le_trans (by norm_num) hD) hc.2),
          find?_pred_cons_neg p (40, 60) _
            (fun hc => not_lt.mpr (le_trans (by norm_num) hD) hc.2),
          find?_pred_cons_neg p (60, 75) _
            (fun hc => not_lt.mpr (le_trans (by norm_num) hD) hc.2),
          find?_pred_cons_neg p (75, 90) _ (fun hc => not_lt.mpr hD hc.2),
          find?_pred_cons_pos p (90, 100) _ ⟨hD, hlt⟩]
        with_unfolding_all decide
      rw [hbstep _ hb]
      refine ⟨?_, ?_, ?_, ?_, ?_⟩
      · rw [mapGet_incKey_ne _ _ _ (by decide),
          if_neg (fun hc => not_lt.mpr (le_trans (by norm_num) hD) hc.2), option_map_add_zero]
      · rw [mapGet_incKey_ne _ _ _ (by decide),
          if_neg (fun hc => not_lt.mpr (le_trans (by norm_num) hD) hc.2), option_map_add_zero]
      · rw [mapGet_incKey_ne _ _ _ (by decide),
          if_neg (fun hc => not_lt.mpr (le_trans (by norm_num) hD) hc.2), option_map_add_zero]
      · rw [mapGet_incKey_ne _ _ _ (by decide),
          if_neg (fun hc => not_lt.mpr hD hc.2), option_map_add_zero]
      · rw [mapGet_incKey_self, if_pos ⟨hD, h100⟩]

theorem foldl_distStep_count (K : String) (P : ℚ → Prop) [DecidablePred P]
    (hstep : ∀ (d : List (String × ℕ)) (p : ℚ), 0 ≤ p → p ≤ 100 →
      mapGet (distStep defaultRanges d p) K
        = (mapGet d K).map (fun n => n + if P p then 1 else 0)) :
    ∀ (pcts : List ℚ) (d : List (String × ℕ)),
      (∀ p ∈ pcts, 0 ≤ p ∧ p ≤ 100) →
      mapGet (pcts.foldl (distStep defaultRanges) d) K =
        (mapGet d K).map (fun n => n + pcts.countP (fun p => decide (P p))) := by
  intro pcts
  induction pcts with
  | nil =>
      intro d h
      simp only [List.foldl_nil, List.countP_nil]
      rw [option_map_add_zero]
  | cons p ps ih =>
      intro d h
      rw [List.foldl_cons,
        ih _ (fun q hq => h q (List.mem_cons_of_mem _ hq)),
        hstep d p (h p (List.mem_cons_self _ _)).1 (h p (List.mem_cons_self _ _)).2,
        List.countP_cons]
      cases hK : mapGet d K with
      | none => rfl
      | some n =>
          simp only [Option.map_some']
          congr 1
          by_cases hP : P p <;> simp [hP] <;> omega

/-- The percentages held by a result, in map order. -/
def pctsOf (r : Result) : List ℚ :=
  r.getStudentResults.map (fun sr => sr.percentage.val)

set_option maxHeartbeats 800000 in
/-- C8: with the default ranges [0, 40, 60, 75, 90, 100], the
distribution counts each student's percentage in the contiguous bucket
`[ranges i, ranges (i+1))` containing it, and an exact 100% is counted in
the top bucket, so the `90-100%` bucket counts `90 ≤ p ≤ 100`.  (The
bounds hypothesis is the `Percentage` class invariant, proved in C6.) -/
theorem C8_marks_distribution (r : Result)
    (hbounds : ∀ sr ∈ r.getStudentResults, 0 ≤ sr.percentage.val ∧ sr.percentage.val ≤ 100) :
    mapGet (calculateMarksDistribution r defaultRanges) "0-40%"
      = some ((pctsOf r).countP (fun p => decide (0 ≤ p ∧ p < 40))) ∧
    mapGet (calculateMarksDistribution r defaultRanges) "40-60%"
      = some ((pctsOf r).countP (fun p => decide (40 ≤ p ∧ p < 60))) ∧
    mapGet (calculateMarksDistribution r defaultRanges) "60-75%"
      = some ((pctsOf r).countP (fun p => decide (60 ≤ p ∧ p < 75))) ∧
    mapGet (calculateMarksDistribution r defaultRanges) "75-90%"
      = some ((pctsOf r).countP (fun p => decide (75 ≤ p ∧ p < 90))) ∧
    mapGet (calculateMarksDistribution r defaultRanges) "90-100%"
      = some ((pctsOf r).countP (fun p => decide (90 ≤ p ∧ p ≤ 100))) := by
  have hfold : r.getStudentResults.foldl (fun d sr => distStep defaultRanges d sr.percentage.val)
      (initDist defaultRanges) = (pctsOf r).foldl (distStep defaultRanges)
      (initDist defaultRanges) := by
    unfold pctsOf
    rw [List.foldl_map]
  have hmem : ∀ p ∈ pctsOf r, 0 ≤ p ∧ p ≤ 100 := by
    intro p hp
    obtain ⟨sr, hsr, rfl⟩ := List.mem_map.mp hp
    exact hbounds sr hsr
  have hinit : ∀ K, K ∈ ["0-40%", "40-60%", "60-75%", "75-90%", "90-100%"] →
      mapGet (initDist defaultRanges) K = some 0 := by
    intro K hK
    fin_cases hK <;> with_unfolding_all decide
  unfold calculateMarksDistribution
  rw [hfold]
  refine ⟨?_, ?_, ?_, ?_, ?_⟩
  · rw [foldl_distStep_count "0-40%" (fun p => 0 ≤ p ∧ p < 40)
      (fun d p h0 h100 => (distStep_default d p h0 h100).1) (pctsOf r) _ hmem,
      hinit "0-40%" (by simp)]
    simp
  · rw [foldl_distStep_count "40-60%" (fun p => 40 ≤ p ∧ p < 60)
      (fun d p h0 h100 => (distStep_default d p h0 h100).2.1) (pctsOf r) _ hmem,
      hinit "40-60%" (by simp)]
    simp
  · rw [foldl_distStep_count "60-75%" (fun p => 60 ≤ p ∧ p < 75)
      (fun d p h0 h100 => (distStep_default d p h0 h100).2.2.1) (pctsOf r) _ hmem,
      hinit "60-75%" (by simp)]
    simp
  · rw [foldl_distStep_count "75-90%" (fun p => 75 ≤ p ∧ p < 90)
      (fun d p h0 h100 => (distStep_default d p h0 h100).2.2.2.1) (pctsOf r) _ hmem,
      hinit "75-90%" (by simp)]
    simp
  · rw [foldl_distStep_count "90-100%" (fun p => 90 ≤ p ∧ p ≤ 100)
      (fun d p h0 h100 => (distStep_default d p h0 h100).2.2.2.2) (pctsOf r) _ hmem,
      hinit "90-100%" (by simp)]
    simp

/-- A concrete four-student result for the C8 witness (percentages 100,
95, 40, 10). -/
def c8wit : Result :=
  { id := "r", title := "T", subjects := [⟨"Math", 100, false⟩],
    studentResults :=
      [("S1", ⟨⟨"Aa Bb", "S1", none, none⟩, [("Math", ⟨100⟩)], ⟨100⟩, ⟨100⟩, none⟩),
       ("S2", ⟨⟨"Cc Dd", "S2", none, none⟩, [("Math", ⟨95⟩)], ⟨95⟩, ⟨95⟩, none⟩),
       ("S3", ⟨⟨"Ee Ff", "S3", none, none⟩, [("Math", ⟨40⟩)], ⟨40⟩, ⟨40⟩, none⟩),
       ("S4", ⟨⟨"Gg Hh", "S4", none, none⟩, [("Math", ⟨10⟩)], ⟨10⟩, ⟨10⟩, none⟩)],
    maxTotalMarks := 100 }

set_option maxHeartbeats 1600000 in
/-- Witness for C8: an exact 100% and a 95% both land in the top bucket,
a 40% in `40-60%` and a 10% in `0-40%`. -/
theorem C8_marks_distribution_witness :
    mapGet (calculateMarksDistribution c8wit defaultRanges) "0-40%"
      = some ((pctsOf c8wit).countP (fun p => decide (0 ≤ p ∧ p < 40))) ∧
    mapGet (calculateMarksDistribution c8wit defaultRanges) "40-60%"
      = some ((pctsOf c8wit).countP (fun p => decide (40 ≤ p ∧ p < 60))) ∧
    mapGet (calculateMarksDistribution c8wit defaultRanges) "90-100%"
      = some ((pctsOf c8wit).countP (fun p => decide (90 ≤ p ∧ p ≤ 100))) ∧
    (pctsOf c8wit).countP (fun p => decide (90 ≤ p ∧ p ≤ 100)) = 2 :=
  have h := C8_marks_distribution c8wit (by with_unfolding_all decide)
  ⟨h.1, h.2.1, h.2.2.2.2, by with_unfolding_all decide⟩

/-! ## C5: duplicate analysis and the overall validation verdict -/

/-- Length of the index list stored under a key (0 when absent). -/
def lenAt (m : List (String × List ℕ)) (k : String) : ℕ :=
  ((mapGet m k).getD []).length

theorem mapGet_appendIdx_self (m : List (String × List ℕ)) (k : String) (i : ℕ) :
    mapGet (appendIdx m k i) k = some (((mapGet m k).getD []) ++ [i]) := by
  induction m with
  | nil => simp [appendIdx, mapGet]
  | cons hd tl ih =>
      obtain ⟨k', l⟩ := hd
      by_cases hk : k' = k
      · simp only [appendIdx]
        rw [if_pos hk]
        simp only [mapGet]
        rw [if_pos hk, if_pos hk]
        rfl
      · simp only [appendIdx]
        rw [if_neg hk]
        simp only [mapGet]
        rw [if_neg hk, if_neg hk]
        exact ih

theorem mapGet_appendIdx_ne (m : List (String × List ℕ)) (k : String) (i : ℕ)
    (k2 : String) (h : k2 ≠ k) :
    mapGet (appendIdx m k i) k2 = mapGet m k2 := by
  induction m with
  | nil =>
      simp only [appendIdx, mapGet]
      rw [if_neg (fun he => h he.symm)]
  | cons hd tl ih =>
      obtain ⟨k', l⟩ := hd
      by_cases hk : k' = k
      · have hne : ¬ k' = k2 := fun he => h (he.symm.trans hk)
        simp only [appendIdx]
        rw [if_pos hk]
        simp only [mapGet]
        rw [if_neg hne, if_neg hne]
      · simp only [appendIdx]
        rw [if_neg hk]
        simp only [mapGet]
        by_cases hk2 : k' = k2
        · rw [if_pos hk2, if_pos hk2]
        · rw [if_neg hk2, if_neg hk2]
          exact ih

theorem lenAt_foldl_appendIdx :
    ∀ (ps : List (ℕ × String)) (m : List (String × List ℕ)) (k : String),
      lenAt (ps.foldl (fun m p => appendIdx m p.2 p.1) m) k =
        lenAt m k + ps.countP (fun p => decide (p.2 = k)) := by
  intro ps
  induction ps with
  | nil => intro m k; simp
  | cons p ps ih =>
      intro m k
      rw [List.foldl_cons, ih, List.countP_cons]
      by_cases hk : p.2 = k
      · have : lenAt (appendIdx m p.2 p.1) k = lenAt m k + 1 := by
          unfold lenAt
          rw [hk, mapGet_appendIdx_self]
          simp
        rw [this]
        have hd : (decide (p.2 = k)) = true := by simp [hk]
        simp only [hd, if_true]
        omega
      · have : lenAt (appendIdx m p.2 p.1) k = lenAt m k := by
          unfold lenAt
          rw [mapGet_appendIdx_ne _ _ _ _ (fun he => hk he.symm)]
        rw [this]
        have hd : (decide (p.2 = k)) = false := by simp [hk]
        simp only [hd, Bool.false_eq_true, if_false]
        omega

theorem lenAt_buildIdxMap (ps : List (ℕ × String)) (k : String) :
    lenAt (buildIdxMap ps) k = ps.countP (fun p => decide (p.2 = k)) := by
  unfold buildIdxMap
  rw [lenAt_foldl_appendIdx]
  simp [lenAt, mapGet]

theorem mapGet_none_not_mem_keys {α : Type} {m : List (String × α)} {k : String}
    (h : mapGet m k = none) : k ∉ m.map Prod.fst := by
  induction m with
  | nil => simp
  | cons hd tl ih =>
      obtain ⟨k', v⟩ := hd
      simp only [mapGet] at h
      by_cases hk : k' = k
      · rw [if_pos hk] at h
        cases h
      · rw [if_neg hk] at h
        simp only [List.map_cons, List.mem_cons]
        rintro (he | he)
        · exact hk he.symm
        · exact ih h he

theorem keys_appendIdx (m : List (String × List ℕ)) (k : String) (i : ℕ) :
    (appendIdx m k i).map Prod.fst =
      if (mapGet m k).isSome then m.map Prod.fst else m.map Prod.fst ++ [k] := by
  induction m with
  | nil => simp [appendIdx, mapGet]
  | cons hd tl ih =>
      obtain ⟨k', l⟩ := hd
      by_cases hk : k' = k
      · simp only [appendIdx]
        rw [if_pos hk]
        simp only [mapGet, List.map_cons]
        rw [if_pos hk]
        simp [hk]
      · simp only [appendIdx]
        rw [if_neg hk]
        simp only [mapGet, List.map_cons]
        rw [if_neg hk, ih]
        by_cases hs : (mapGet tl k).isSome
        · rw [if_pos hs, if_pos hs]
        · rw [if_neg hs, if_neg hs]
          simp

theorem nodupKeys_appendIdx (m : List (String × List ℕ)) (k : String) (i : ℕ)
    (h : (m.map Prod.fst).Nodup) : ((appendIdx m k i).map Prod.fst).Nodup := by
  rw [keys_appendIdx]
  rcases hs : mapGet m k with _ | v
  · simp only [hs, Option.isSome_none, Bool.false_eq_true, if_false]
    rw [List.nodup_append]
    exact ⟨h, List.nodup_singleton k,
      fun a ha hb => (List.mem_singleton.mp hb ▸ mapGet_none_not_mem_keys hs) ha⟩
  · simp only [hs, Option.isSome_some, if_true]
    exact h

theorem nodupKeys_buildIdxMap (ps : List (ℕ × String)) :
    ((buildIdxMap ps).map Prod.fst).Nodup := by
  have hgen : ∀ (qs : List (ℕ × String)) (m : List (String × List ℕ)),
      (m.map Prod.fst).Nodup →
      ((qs.foldl (fun m p => appendIdx m p.2 p.1) m).map Prod.fst).Nodup := by
    intro qs
    induction qs with
    | nil => intro m hm; exact hm
    | cons q qs ih =>
        intro m hm
        rw [List.foldl_cons]
        exact ih _ (nodupKeys_appendIdx m q.2 q.1 hm)
  exact hgen ps [] (by simp)

theorem mapGet_of_mem_nodupKeys {α : Type} (m : List (String × α)) (kv : String × α)
    (hnd : (m.map Prod.fst).Nodup) (hm : kv ∈ m) : mapGet m kv.1 = some kv.2 := by
  induction m with
  | nil => cases hm
  | cons hd tl ih =>
      obtain ⟨k', v⟩ := hd
      simp only [List.map_cons, List.nodup_cons] at hnd
      rcases List.mem_cons.mp hm with he | he
      · subst he
        simp [mapGet]
      · have hk : ¬ k' = kv.1 := by
          intro hc
          exact hnd.1 (hc ▸ List.mem_map_of_mem Prod.fst he)
        simp only [mapGet]
        rw [if_neg hk]
        exact ih hnd.2 he

theorem mem_of_mapGet_eq_some {α : Type} {m : List (String × α)} {k : String} {v : α}
    (h : mapGet m k = some v) : (k, v) ∈ m := by
  induction m with
  | nil => cases h
  | cons hd tl ih =>
      obtain ⟨k', v'⟩ := hd
      simp only [mapGet] at h
      by_cases hk : k' = k
      · rw [if_pos hk] at h
        subst hk
        cases h
        exact List.mem_cons_self _ _
      · rw [if_neg hk] at h
        exact List.mem_cons_of_mem _ (ih h)

theorem countP_idxKeys (g : TRow → Option String) (k : String) :
    ∀ (rows : List TRow) (i : ℕ),
      (idxKeys g i rows).countP (fun p => decide (p.2 = k)) =
        rows.countP (fun row => decide (truthyStr (g row) = true ∧ normOf (g row) = k)) := by
  intro rows
  induction rows with
  | nil => intro i; rfl
  | cons row rest ih =>
      intro i
      simp only [idxKeys]
      by_cases ht : truthyStr (g row) = true
      · rw [if_pos ht, List.singleton_append, List.countP_cons, List.countP_cons, ih]
        by_cases hk : normOf (g row) = k <;> simp [ht, hk]
      · rw [if_neg ht, List.nil_append, ih, List.countP_cons]
        have hfalse : decide (truthyStr (g row) = true ∧ normOf (g row) = k) = false := by
          simp [ht]
        simp [hfalse]

theorem countP_le_one_of_pairwise {α : Type} (pred : α → Prop) [DecidablePred pred] :
    ∀ l : List α, l.Pairwise (fun a b => ¬ (pred a ∧ pred b)) →
      l.countP (fun x => decide (pred x)) ≤ 1 := by
  intro l
  induction l with
  | nil => intro _; simp
  | cons x xs ih =>
      intro hp
      rcases List.pairwise_cons.mp hp with ⟨hx, hxs⟩
      rw [List.countP_cons]
      by_cases hpx : pred x
      · have hzero : xs.countP (fun x => decide (pred x)) = 0 := by
          rw [List.countP_eq_zero]
          intro a ha
          simp only [decide_eq_true_eq]
          exact fun hpa => hx a ha ⟨hpx, hpa⟩
        simp [hzero, hpx]
      · have hd : (decide (pred x)) = false := by simp [hpx]
        simp only [hd, Bool.false_eq_true, if_false, Nat.add_zero]
        exact ih hxs

/-- The number of rows carrying a given normalized key in a field. -/
def keyCount (g : TRow → Option String) (rows : List TRow) (k : String) : ℕ :=
  rows.countP (fun row => decide (truthyStr (g row) = true ∧ normOf (g row) = k))

theorem lenAt_keyCount (g : TRow → Option String) (rows : List TRow) (k : String) :
    lenAt (buildIdxMap (idxKeys g 0 rows)) k = keyCount g rows k := by
  rw [lenAt_buildIdxMap, countP_idxKeys]
  rfl

theorem mem_dupKeys_of_two (g : TRow → Option String) (rows : List TRow) (k : String)
    (hcount : 2 ≤ keyCount g rows k) :
    k ∈ (((buildIdxMap (idxKeys g 0 rows)).filter
        (fun kv => decide (kv.2.length > 1))).map Prod.fst) := by
  have hlen := lenAt_keyCount g rows k
  rcases hm : mapGet (buildIdxMap (idxKeys g 0 rows)) k with _ | l
  · rw [lenAt, hm] at hlen
    simp at hlen
    omega
  · rw [lenAt, hm] at hlen
    simp only [Option.getD_some] at hlen
    refine List.mem_map.mpr ⟨(k, l), List.mem_filter.mpr ⟨mem_of_mapGet_eq_some hm, ?_⟩, rfl⟩
    simp only [decide_eq_true_eq]
    omega

theorem dupKeys_nil (g : TRow → Option String) (rows : List TRow)
    (hcount : ∀ k, keyCount g rows k ≤ 1) :
    (buildIdxMap (idxKeys g 0 rows)).filter (fun kv => decide (kv.2.length > 1)) = [] := by
  rw [List.filter_eq_nil_iff]
  intro kv hkv
  have hget := mapGet_of_mem_nodupKeys _ kv (nodupKeys_buildIdxMap (idxKeys g 0 rows)) hkv
  have hlen := lenAt_keyCount g rows kv.1
  rw [lenAt, hget] at hlen
  simp only [Option.getD_some] at hlen
  have := hcount kv.1
  simp only [decide_eq_true_eq]
  omega

theorem validateData_dupAnalysis (rows : List TRow) :
    (validateData rows).duplicateAnalysis = analyzeDuplicates rows := rfl

theorem validateData_globalErrors (rows : List TRow) :
    (validateData rows).globalErrors =
      if (analyzeDuplicates rows).duplicateRollNumbers ≠ [] then
        ["Found duplicate roll numbers: " ++
          joinComma ((analyzeDuplicates rows).duplicateRollNumbers.map Prod.fst)]
      else [] := rfl

theorem validateData_globalWarnings (rows : List TRow) :
    (validateData rows).globalWarnings =
      if (analyzeDuplicates rows).duplicateNames ≠ [] then
        ["Found duplicate names: " ++
          joinComma ((analyzeDuplicates rows).duplicateNames.map Prod.fst)]
      else [] := rfl

theorem dupRolls_eq (rows : List TRow) :
    (analyzeDuplicates rows).duplicateRollNumbers =
      (buildIdxMap (idxKeys TRow.rollNumber 0 rows)).filter
        (fun kv => decide (kv.2.length > 1)) := rfl

theorem dupNames_eq (rows : List TRow) :
    (analyzeDuplicates rows).duplicateNames =
      (buildIdxMap (idxKeys TRow.studentName 0 rows)).filter
        (fun kv => decide (kv.2.length > 1)) := rfl

theorem keyCount_two_of_split (g : TRow → Option String)
    (l1 l2 l3 : List TRow) (r1 r2 : TRow)
    (ht1 : truthyStr (g r1) = true) (ht2 : truthyStr (g r2) = true)
    (hnn : normOf (g r1) = normOf (g r2)) :
    2 ≤ keyCount g (l1 ++ r1 :: l2 ++ r2 :: l3) (normOf (g r1)) := by
  unfold keyCount
  have hp1 : decide (truthyStr (g r1) = true ∧ True) = true :=
    decide_eq_true ⟨ht1, trivial⟩
  have hp2 : decide (truthyStr (g r2) = true ∧ normOf (g r2) = normOf (g r1)) = true :=
    decide_eq_true ⟨ht2, hnn.symm⟩
  simp only [List.countP_append, List.countP_cons]
  rw [hp1, hp2]
  simp only [if_pos rfl, if_true]
  omega

/-- C5: rows sharing a truthy roll number case-insensitively produce
exactly one global error entry, listing that (normalized) roll number;
rows sharing only a name produce a global warning listing the name and no
global error; and the overall result is valid iff there are no global
errors and no invalid rows. -/
theorem C5_duplicates_and_verdict :
    (∀ (rows l1 l2 l3 : List TRow) (r1 r2 : TRow),
      rows = l1 ++ r1 :: l2 ++ r2 :: l3 →
      truthyStr r1.rollNumber = true → truthyStr r2.rollNumber = true →
      normOf r1.rollNumber = normOf r2.rollNumber →
      (validateData rows).globalErrors =
        ["Found duplicate roll numbers: " ++
          joinComma ((validateData rows).duplicateAnalysis.duplicateRollNumbers.map Prod.fst)] ∧
      normOf r1.rollNumber ∈
        (validateData rows).duplicateAnalysis.duplicateRollNumbers.map Prod.fst) ∧
    (∀ (rows l1 l2 l3 : List TRow) (r1 r2 : TRow),
      rows.Pairwise (fun a b => ¬ (truthyStr a.rollNumber = true ∧
        truthyStr b.rollNumber = true ∧ normOf a.rollNumber = normOf b.rollNumber)) →
      rows = l1 ++ r1 :: l2 ++ r2 :: l3 →
      truthyStr r1.studentName = true → truthyStr r2.studentName = true →
      normOf r1.studentName = normOf r2.studentName →
      (validateData rows).globalErrors = [] ∧
      (validateData rows).globalWarnings =
        ["Found duplicate names: " ++
          joinComma ((validateData rows).duplicateAnalysis.duplicateNames.map Prod.fst)] ∧
      normOf r1.studentName ∈
        (validateData rows).duplicateAnalysis.duplicateNames.map Prod.fst) ∧
    (∀ rows : List TRow,
      (validateData rows).isValid = true ↔
      (validateData rows).globalErrors = [] ∧
      ((validateData rows).rowResults.filter (fun rr => rr.isValid = false)).length = 0) := by
  refine ⟨?_, ?_, ?_⟩
  · intro rows l1 l2 l3 r1 r2 hsplit ht1 ht2 hnn
    have hcount : 2 ≤ keyCount TRow.rollNumber rows (normOf r1.rollNumber) := by
      rw [hsplit]
      exact keyCount_two_of_split TRow.rollNumber l1 l2 l3 r1 r2 ht1 ht2 hnn
    have hmem := mem_dupKeys_of_two TRow.rollNumber rows (normOf r1.rollNumber) hcount
    rw [validateData_dupAnalysis, dupRolls_eq]
    have hne : (buildIdxMap (idxKeys TRow.rollNumber 0 rows)).filter
        (fun kv => decide (kv.2.length > 1)) ≠ [] := by
      intro h0
      rw [h0] at hmem
      cases hmem
    refine ⟨?_, hmem⟩
    rw [validateData_globalErrors, dupRolls_eq, if_pos hne]
  · intro rows l1 l2 l3 r1 r2 hpair hsplit ht1 ht2 hnn
    have hrollcount : ∀ k, keyCount TRow.rollNumber rows k ≤ 1 := by
      intro k
      refine countP_le_one_of_pairwise
        (fun row => truthyStr row.rollNumber = true ∧ normOf row.rollNumber = k) rows ?_
      refine hpair.imp ?_
      intro a b hab hc
      exact hab ⟨hc.1.1, hc.2.1, hc.1.2.trans hc.2.2.symm⟩
    have hrnil : (analyzeDuplicates rows).duplicateRollNumbers = [] := by
      rw [dupRolls_eq]
      exact dupKeys_nil TRow.rollNumber rows hrollcount
    have hcount : 2 ≤ keyCount TRow.studentName rows (normOf r1.studentName) := by
      rw [hsplit]
      exact keyCount_two_of_split TRow.studentName l1 l2 l3 r1 r2 ht1 ht2 hnn
    have hmem := mem_dupKeys_of_two TRow.studentName rows (normOf r1.studentName) hcount
    have hne : (buildIdxMap (idxKeys TRow.studentName 0 rows)).filter
        (fun kv => decide (kv.2.length > 1)) ≠ [] := by
      intro h0
      rw [h0] at hmem
      cases hmem
    refine ⟨?_, ?_, ?_⟩
    · rw [validateData_globalErrors, if_neg (fun hc => hc hrnil)]
    · rw [validateData_globalWarnings, validateData_dupAnalysis, dupNames_eq, if_pos hne]
    · rw [validateData_dupAnalysis, dupNames_eq]
      exact hmem
  · intro rows
    constructor
    · intro h
      exact of_decide_eq_true h
    · intro h
      exact decide_eq_true h

/-- A row with roll number `R1`. -/
def c5rowA : TRow :=
  { studentName := some "Alice Smith", rollNumber := some "R1", marks := [("Math", 50)] }

/-- A row whose roll number ` r1` matches `R1` only after trimming and
lowercasing. -/
def c5rowB : TRow :=
  { studentName := some "Bob Jones", rollNumber := some " r1", marks := [("Math", 60)] }

/-- A row sharing only the (case-insensitive) name with `c5rowA`. -/
def c5rowC : TRow :=
  { studentName := some "alice smith ", rollNumber := some "R2", marks := [("Math", 60)] }

def c5batchRolls : List TRow := [c5rowA, c5rowB]

def c5batchNames : List TRow := [c5rowA, c5rowC]

set_option maxHeartbeats 1600000 in
/-- Witness for C5 at two concrete batches. -/
theorem C5_duplicates_and_verdict_witness :
    ((validateData c5batchRolls).globalErrors =
      ["Found duplicate roll numbers: " ++
        joinComma
          ((validateData c5batchRolls).duplicateAnalysis.duplicateRollNumbers.map Prod.fst)] ∧
     normOf c5rowA.rollNumber ∈
       (validateData c5batchRolls).duplicateAnalysis.duplicateRollNumbers.map Prod.fst) ∧
    ((validateData c5batchNames).globalErrors = [] ∧
     (validateData c5batchNames).globalWarnings =
       ["Found duplicate names: " ++
         joinComma ((validateData c5batchNames).duplicateAnalysis.duplicateNames.map Prod.fst)] ∧
     normOf c5rowA.studentName ∈
       (validateData c5batchNames).duplicateAnalysis.duplicateNames.map Prod.fst) ∧
    ((validateData c5batchRolls).isValid = true ↔
     (validateData c5batchRolls).globalErrors = [] ∧
     ((validateData c5batchRolls).rowResults.filter
        (fun rr => rr.isValid = false)).length = 0) :=
  ⟨C5_duplicates_and_verdict.1 c5batchRolls [] [] [] c5rowA c5rowB rfl
      (by decide) (by decide) (by decide),
   C5_duplicates_and_verdict.2.1 c5batchNames [] [] [] c5rowA c5rowC
      (by decide) rfl (by decide) (by decide) (by decide),
   C5_duplicates_and_verdict.2.2 c5batchRolls⟩

end ResultEase
